import Mathlib

/-!
Verification of the aerodrome decoder
(`rotkehlchen/chain/base/modules/aerodrome/decoder.py`).

The decoder walks a transaction-scoped, ordered list of ledger events and
reclassifies in place the events that belong to the aerodrome protocol
(pools, router, gauges).  The embedding below translates the Python code
into pure Lean functions: in-place mutation of the event list becomes a
function from the list to a new list together with the extra state the
Python code touches (the token-protocol store, the emitted diagnostics,
the refresh flag) and an `Option DecoderError` modelling a raised
exception (`none` = normal return, `some e` = exception `e` propagating
to the caller; the returned list is the state of the shared list at the
moment the exception escapes, since mutation happens in place).
-/

namespace Aerodrome

/-- History event types used by the decoder (subset of the upstream enum). -/
inductive HistoryEventType
  | SPEND
  | RECEIVE
  | TRADE
  | DEPOSIT
  | WITHDRAWAL
  | INFORMATIONAL
  deriving DecidableEq, Repr

/-- History event subtypes used by the decoder (subset of the upstream enum). -/
inductive HistoryEventSubType
  | NONE
  | DEPOSIT_ASSET
  | RECEIVE_WRAPPED
  | RETURN_WRAPPED
  | REMOVE_ASSET
  | SPEND
  | RECEIVE
  | REWARD
  | FEE
  | APPROVE
  deriving DecidableEq, Repr

/-- Protocol feature tag attached to classified events. -/
inductive EvmProduct
  | POOL
  | GAUGE
  deriving DecidableEq, Repr

/-- Checksummed EVM addresses, embedded as their 160-bit numeric value. -/
abbrev ChecksumEvmAddress := Nat

/-- How an asset reference behaves under resolution.  `evmToken` resolves both
to a crypto asset and to an EVM token; `otherCrypto` resolves to a crypto
asset but raises `WrongAssetType` as an EVM token; `fiat` raises
`WrongAssetType` already at crypto-asset resolution; `unknownId` raises
`UnknownAsset`. -/
inductive AssetKind
  | evmToken
  | otherCrypto
  | fiat
  | unknownId
  deriving DecidableEq, Repr

/-- An asset reference carried by a ledger event, together with the metadata
(symbol, decimals) a successful resolution yields. -/
structure Asset where
  identifier : Nat
  kind : AssetKind
  symbol : String
  decimals : Nat
  deriving DecidableEq, Repr

/-- Hard errors the event walk can raise while resolving an asset. -/
inductive DecoderError
  | UnknownAsset (identifier : Nat)
  | WrongAssetType (identifier : Nat)
  deriving DecidableEq, Repr

/-- Resolution of an asset reference to a crypto asset: raises `UnknownAsset`
for unknown identifiers and `WrongAssetType` for non-crypto assets
(`event.asset.resolve_to_crypto_asset()` in the source). -/
def Asset.resolve_to_crypto_asset (a : Asset) : Except DecoderError Asset :=
  match a.kind with
  | .unknownId => .error (.UnknownAsset a.identifier)
  | .fiat => .error (.WrongAssetType a.identifier)
  | _ => .ok a

/-- Resolution of an asset reference to an EVM token
(`event.asset.resolve_to_evm_token()` in the source). -/
def Asset.resolve_to_evm_token (a : Asset) : Except DecoderError Asset :=
  match a.kind with
  | .unknownId => .error (.UnknownAsset a.identifier)
  | .evmToken => .ok a
  | _ => .error (.WrongAssetType a.identifier)

/-- A balance carried by an event; `amount` is the exact decimal quantity
(upstream `FVal`), embedded as a rational. -/
structure Balance where
  amount : ℚ
  deriving DecidableEq, Repr

/-- Human-readable notes attached to events.  Each constructor records one
f-string template of the source together with its interpolated data:
`depositPool a s p` is "Deposit a s in aerodrome pool p";
`receiveWrapped a s p` is "Receive a s after depositing in aerodrome pool p";
`returnWrapped a s` is "Return a s";
`removeFromPool a s p` is "Remove a s from aerodrome pool p";
`swapSpend a s c` is "Swap a s in c";
`swapReceive a s c` is "Receive a s as the result of a swap in c";
`gaugeDeposit a s g` is "Deposit a s into g aerodrome gauge";
`gaugeWithdraw a s g` is "Withdraw a s from g aerodrome gauge";
`gaugeReward a s g` is "Receive a s rewards from g aerodrome gauge";
`upstream t` is a note produced before this decoder runs. -/
inductive Note
  | depositPool (amount : ℚ) (symbol : String) (pool : Option ChecksumEvmAddress)
  | receiveWrapped (amount : ℚ) (symbol : String) (pool : ChecksumEvmAddress)
  | returnWrapped (amount : ℚ) (symbol : String)
  | removeFromPool (amount : ℚ) (symbol : String) (pool : ChecksumEvmAddress)
  | swapSpend (amount : ℚ) (symbol : String) (counterparty : String)
  | swapReceive (amount : ℚ) (symbol : String) (counterparty : String)
  | gaugeDeposit (amount : ℚ) (symbol : String) (gauge : ChecksumEvmAddress)
  | gaugeWithdraw (amount : ℚ) (symbol : String) (gauge : ChecksumEvmAddress)
  | gaugeReward (amount : ℚ) (symbol : String) (gauge : ChecksumEvmAddress)
  | upstream (text : String)
  deriving DecidableEq, Repr

/-- A ledger event (upstream `EvmEvent`), mutable in the source and
reclassified in place. -/
structure EvmEvent where
  event_type : HistoryEventType
  event_subtype : HistoryEventSubType
  asset : Asset
  balance : Balance
  location_label : Option ChecksumEvmAddress := none
  address : Option ChecksumEvmAddress := none
  counterparty : Option String := none
  product : Option EvmProduct := none
  notes : Option Note := none
  deriving DecidableEq, Repr

/-- The fixed aerodrome router address
`0xcF77a3Ba9A5CA399B7c97c74d54e5b1Beb874E43`. -/
def ROUTER : ChecksumEvmAddress := 0xcF77a3Ba9A5CA399B7c97c74d54e5b1Beb874E43

/-- The zero/burn address. -/
def ZERO_ADDRESS : ChecksumEvmAddress := 0

/-- The aerodrome counterparty identifier (`CPT_AERODROME`); the constants
module is not among the sources, the concrete string value is irrelevant to
the claims. -/
def CPT_AERODROME : String := "aerodrome"

/-- The protocol tag written on aerodrome LP tokens
(`AERODROME_POOL_PROTOCOL`); the concrete string value is irrelevant to the
claims. -/
def AERODROME_POOL_PROTOCOL : String := "aerodrome_pool"

/-- The distinct 32-byte log-topic constants the decoder matches on; `OTHER`
stands for any other topic value. -/
inductive LogTopic
  | ADD_LIQUIDITY
  | REMOVE_LIQUIDITY
  | SWAP
  | GAUGE_DEPOSIT
  | GAUGE_WITHDRAW
  | CLAIM_REWARDS
  | OTHER (raw : Nat)
  deriving DecidableEq, Repr

/-- A raw transaction receipt log.  `topic0` is the event signature,
`topic1_address` the address word the source extracts via
`hex_or_bytes_to_address(tx_log.topics[1])`, and `data_int` the raw integer
the source extracts via `hex_or_bytes_to_int(tx_log.data)`. -/
structure EvmTxReceiptLog where
  address : ChecksumEvmAddress
  topic0 : LogTopic
  topic1_address : ChecksumEvmAddress := 0
  data_int : Nat := 0
  deriving DecidableEq, Repr

/-- The decoding context handed to the pool/gauge handlers: the triggering
log, the transaction's current event sequence, and the transaction hash
(used only in diagnostics). -/
structure DecoderContext where
  tx_log : EvmTxReceiptLog
  decoded_events : List EvmEvent
  tx_hash : String

/-- The result object handlers return; only the `refresh_balances` flag is
relevant to the decoder under study. -/
structure DecodingOutput where
  refresh_balances : Bool
  deriving DecidableEq, Repr

/-- The default decoding output (`DEFAULT_DECODING_OUTPUT`). -/
def DEFAULT_DECODING_OUTPUT : DecodingOutput := ⟨false⟩

/-- The token-protocol store: maps a token identifier to its protocol tag
(`None` when the tag is unset). -/
abbrev TokenDB := Nat → Option String

/-- Modelled from the spec: `set_token_protocol_if_missing`
(`rotkehlchen/assets/utils.py`) is not among the sources; the spec describes
it as marking the asset's protocol metadata as belonging to the protocol
only if not already set (write-once metadata tag). -/
def set_token_protocol_if_missing (db : TokenDB) (evm_token : Asset)
    (protocol : String) : TokenDB :=
  fun id =>
    if id = evm_token.identifier then
      match db evm_token.identifier with
      | none => some protocol
      | some p => some p
    else db id

/-- Modelled from the spec: `asset_normalized_value`
(`rotkehlchen/chain/ethereum/utils.py`) is not among the sources; the spec
describes it as normalizing the raw integer to the asset's human-decimal
scale. -/
def asset_normalized_value (amount : Nat) (asset : Asset) : ℚ :=
  (amount : ℚ) / 10 ^ asset.decimals

/-- The protocol address set: the fixed router plus all pools
(`self.protocol_addresses = set union of ROUTER and self.pools`). -/
def protocol_addresses (pools : List ChecksumEvmAddress) :
    List ChecksumEvmAddress :=
  ROUTER :: pools

/-- Add-liquidity spend condition: `event_type == SPEND`,
`event_subtype == NONE`, `event.address in self.pools`. -/
abbrev isAddLiqSpendCand (pools : List ChecksumEvmAddress) (e : EvmEvent) :
    Prop :=
  e.event_type = HistoryEventType.SPEND ∧
  e.event_subtype = HistoryEventSubType.NONE ∧
  e.address ∈ pools.map Option.some

/-- Add-liquidity receive condition: `event_type == RECEIVE`,
`event_subtype == NONE`, `event.address == ZERO_ADDRESS`. -/
abbrev isAddLiqReceiveCand (e : EvmEvent) : Prop :=
  e.event_type = HistoryEventType.RECEIVE ∧
  e.event_subtype = HistoryEventSubType.NONE ∧
  e.address = some ZERO_ADDRESS

/-- Remove-liquidity spend condition: `SPEND`/`NONE` with `event.address`
in pools. -/
abbrev isRemLiqSpendCand (pools : List ChecksumEvmAddress) (e : EvmEvent) :
    Prop :=
  e.event_type = HistoryEventType.SPEND ∧
  e.event_subtype = HistoryEventSubType.NONE ∧
  e.address ∈ pools.map Option.some

/-- Remove-liquidity receive condition: `RECEIVE`/`NONE` with
`event.address` in pools. -/
abbrev isRemLiqReceiveCand (pools : List ChecksumEvmAddress) (e : EvmEvent) :
    Prop :=
  e.event_type = HistoryEventType.RECEIVE ∧
  e.event_subtype = HistoryEventSubType.NONE ∧
  e.address ∈ pools.map Option.some

/-- Swap spend-leg condition: `SPEND`/`NONE` with `event.address` in
`self.protocol_addresses`. -/
abbrev isSwapSpendCand (pa : List ChecksumEvmAddress) (e : EvmEvent) : Prop :=
  e.event_type = HistoryEventType.SPEND ∧
  e.event_subtype = HistoryEventSubType.NONE ∧
  e.address ∈ pa.map Option.some

/-- Swap receive-leg condition: `RECEIVE`/`NONE` with `event.address` in
`self.protocol_addresses`. -/
abbrev isSwapReceiveCand (pa : List ChecksumEvmAddress) (e : EvmEvent) :
    Prop :=
  e.event_type = HistoryEventType.RECEIVE ∧
  e.event_subtype = HistoryEventSubType.NONE ∧
  e.address ∈ pa.map Option.some

/-- Gauge correlation condition: the event's
`(location_label, address, balance.amount)` triple equals the log's
`(acting account, gauge address, normalized raw amount)`. -/
abbrev gaugeTripleMatch (user gauge : ChecksumEvmAddress) (raw : Nat)
    (crypto_asset : Asset) (e : EvmEvent) : Prop :=
  e.location_label = some user ∧
  e.address = some gauge ∧
  e.balance.amount = asset_normalized_value raw crypto_asset

/-- Reclassification of an add-liquidity spend leg (decoder lines 98-102). -/
def addLiqSpendReclass (e : EvmEvent) (crypto_asset : Asset) : EvmEvent :=
  { e with
    event_type := HistoryEventType.DEPOSIT
    event_subtype := HistoryEventSubType.DEPOSIT_ASSET
    counterparty := some CPT_AERODROME
    notes := some (Note.depositPool e.balance.amount crypto_asset.symbol
      e.address)
    product := some EvmProduct.POOL }

/-- Reclassification of an add-liquidity receive leg (decoder lines
108-111). -/
def addLiqReceiveReclass (e : EvmEvent) (crypto_asset : Asset)
    (tx_log_address : ChecksumEvmAddress) : EvmEvent :=
  { e with
    event_subtype := HistoryEventSubType.RECEIVE_WRAPPED
    counterparty := some CPT_AERODROME
    notes := some (Note.receiveWrapped e.balance.amount crypto_asset.symbol
      tx_log_address)
    product := some EvmProduct.POOL }

/-- Reclassification of a remove-liquidity spend leg (decoder lines
131-134). -/
def remLiqSpendReclass (e : EvmEvent) (crypto_asset : Asset) : EvmEvent :=
  { e with
    event_subtype := HistoryEventSubType.RETURN_WRAPPED
    counterparty := some CPT_AERODROME
    notes := some (Note.returnWrapped e.balance.amount crypto_asset.symbol)
    product := some EvmProduct.POOL }

/-- Reclassification of a remove-liquidity receive leg (decoder lines
140-144). -/
def remLiqReceiveReclass (e : EvmEvent) (crypto_asset : Asset)
    (tx_log_address : ChecksumEvmAddress) : EvmEvent :=
  { e with
    event_type := HistoryEventType.WITHDRAWAL
    event_subtype := HistoryEventSubType.REMOVE_ASSET
    counterparty := some CPT_AERODROME
    notes := some (Note.removeFromPool e.balance.amount crypto_asset.symbol
      tx_log_address)
    product := some EvmProduct.POOL }

/-- Reclassification of a swap spend leg (decoder lines 158-161). -/
def swapSpendReclass (e : EvmEvent) (crypto_asset : Asset) : EvmEvent :=
  { e with
    event_type := HistoryEventType.TRADE
    event_subtype := HistoryEventSubType.SPEND
    counterparty := some CPT_AERODROME
    notes := some (Note.swapSpend e.balance.amount crypto_asset.symbol
      CPT_AERODROME) }

/-- Reclassification of a swap receive leg (decoder lines 168-171). -/
def swapReceiveReclass (e : EvmEvent) (crypto_asset : Asset) : EvmEvent :=
  { e with
    event_type := HistoryEventType.TRADE
    event_subtype := HistoryEventSubType.RECEIVE
    counterparty := some CPT_AERODROME
    notes := some (Note.swapReceive e.balance.amount crypto_asset.symbol
      CPT_AERODROME) }

/-- Reclassification of a gauge event on a GAUGE_DEPOSIT match (decoder
lines 224-230). -/
def gaugeDepositReclass (e : EvmEvent) (crypto_asset : Asset)
    (gauge : ChecksumEvmAddress) : EvmEvent :=
  { e with
    counterparty := some CPT_AERODROME
    product := some EvmProduct.GAUGE
    event_type := HistoryEventType.DEPOSIT
    event_subtype := HistoryEventSubType.DEPOSIT_ASSET
    notes := some (Note.gaugeDeposit e.balance.amount crypto_asset.symbol
      gauge) }

/-- Reclassification of a gauge event on a GAUGE_WITHDRAW match (decoder
lines 224-226 and 232-235). -/
def gaugeWithdrawReclass (e : EvmEvent) (crypto_asset : Asset)
    (gauge : ChecksumEvmAddress) : EvmEvent :=
  { e with
    counterparty := some CPT_AERODROME
    product := some EvmProduct.GAUGE
    event_type := HistoryEventType.WITHDRAWAL
    event_subtype := HistoryEventSubType.REMOVE_ASSET
    notes := some (Note.gaugeWithdraw e.balance.amount crypto_asset.symbol
      gauge) }

/-- Reclassification of a gauge event on a CLAIM_REWARDS match (decoder
lines 224-226 and 236-239). -/
def gaugeRewardReclass (e : EvmEvent) (crypto_asset : Asset)
    (gauge : ChecksumEvmAddress) : EvmEvent :=
  { e with
    counterparty := some CPT_AERODROME
    product := some EvmProduct.GAUGE
    event_type := HistoryEventType.WITHDRAWAL
    event_subtype := HistoryEventSubType.REWARD
    notes := some (Note.gaugeReward e.balance.amount crypto_asset.symbol
      gauge) }

/-- Result of a liquidity event walk: the final state of the shared event
list, the final token-protocol store, and the exception escaping the walk
(`none` on normal return, in which case the source returns
`DEFAULT_DECODING_OUTPUT`). -/
structure LiquidityWalk where
  events : List EvmEvent
  db : TokenDB
  err : Option DecoderError

/-- Translation of `_decode_add_liquidity_events` (decoder lines 79-116):
walks the event list once; each event's asset is first resolved to a crypto
asset (raising on failure), then the event is reclassified in place when it
matches the add-liquidity spend or receive shape; on the receive branch the
asset is additionally resolved to an EVM token (after the event fields were
already mutated) and the write-once protocol tag is applied. -/
def decode_add_liquidity_events (pools : List ChecksumEvmAddress)
    (tx_log : EvmTxReceiptLog) :
    List EvmEvent → TokenDB → LiquidityWalk
  | [], db => ⟨[], db, none⟩
  | e :: rest, db =>
    match e.asset.resolve_to_crypto_asset with
    | .error err => ⟨e :: rest, db, some err⟩
    | .ok crypto_asset =>
      if isAddLiqSpendCand pools e then
        let w := decode_add_liquidity_events pools tx_log rest db
        ⟨addLiqSpendReclass e crypto_asset :: w.events, w.db, w.err⟩
      else if isAddLiqReceiveCand e then
        let e' := addLiqReceiveReclass e crypto_asset tx_log.address
        match e.asset.resolve_to_evm_token with
        | .error err => ⟨e' :: rest, db, some err⟩
        | .ok evm_token =>
          let db' := set_token_protocol_if_missing db evm_token
            AERODROME_POOL_PROTOCOL
          let w := decode_add_liquidity_events pools tx_log rest db'
          ⟨e' :: w.events, w.db, w.err⟩
      else
        let w := decode_add_liquidity_events pools tx_log rest db
        ⟨e :: w.events, w.db, w.err⟩

/-- Result of the remove-liquidity walk. -/
structure RemoveWalk where
  events : List EvmEvent
  err : Option DecoderError

/-- Translation of `_decode_remove_liquidity_events` (decoder lines
118-146). -/
def decode_remove_liquidity_events (pools : List ChecksumEvmAddress)
    (tx_log : EvmTxReceiptLog) :
    List EvmEvent → RemoveWalk
  | [] => ⟨[], none⟩
  | e :: rest =>
    match e.asset.resolve_to_crypto_asset with
    | .error err => ⟨e :: rest, some err⟩
    | .ok crypto_asset =>
      if isRemLiqSpendCand pools e then
        let w := decode_remove_liquidity_events pools tx_log rest
        ⟨remLiqSpendReclass e crypto_asset :: w.events, w.err⟩
      else if isRemLiqReceiveCand pools e then
        let w := decode_remove_liquidity_events pools tx_log rest
        ⟨remLiqReceiveReclass e crypto_asset tx_log.address :: w.events,
          w.err⟩
      else
        let w := decode_remove_liquidity_events pools tx_log rest
        ⟨e :: w.events, w.err⟩

/-- Result of the swap scan loop (decoder lines 150-172): the final event
list, the positions of the events the local variables `spend_event` and
`receive_event` point to after the loop (`none` when the variable is still
`None`), and the escaping exception. -/
structure SwapScan where
  events : List EvmEvent
  spend_idx : Option Nat
  receive_idx : Option Nat
  err : Option DecoderError

/-- Translation of the scan loop of `_decode_swap` (decoder lines 150-172).
`i` is the position of the head of the remaining list inside the full list;
`s` and `r` are the current values of the `spend_event` / `receive_event`
variables, as positions.  Every matching event is reclassified in place and
the corresponding variable is overwritten with it. -/
def swapScanGo (pa : List ChecksumEvmAddress) :
    List EvmEvent → Nat → Option Nat → Option Nat → SwapScan
  | [], _, s, r => ⟨[], s, r, none⟩
  | e :: rest, i, s, r =>
    match e.asset.resolve_to_crypto_asset with
    | .error err => ⟨e :: rest, s, r, some err⟩
    | .ok crypto_asset =>
      if isSwapSpendCand pa e then
        let w := swapScanGo pa rest (i + 1) (some i) r
        ⟨swapSpendReclass e crypto_asset :: w.events, w.spend_idx,
          w.receive_idx, w.err⟩
      else if isSwapReceiveCand pa e then
        let w := swapScanGo pa rest (i + 1) s (some i)
        ⟨swapReceiveReclass e crypto_asset :: w.events, w.spend_idx,
          w.receive_idx, w.err⟩
      else
        let w := swapScanGo pa rest (i + 1) s r
        ⟨e :: w.events, w.spend_idx, w.receive_idx, w.err⟩

/-- Modelled from the spec: `maybe_reshuffle_events`
(`rotkehlchen/chain/evm/decoding/utils.py`) is not among the sources; the
spec describes it as enforcing that the spend leg immediately precedes the
receive leg in the final event sequence, re-splicing the sequence if the
upstream order differed while preserving the relative order of all other
untouched events.  `i` and `j` are the positions of the spend and receive
legs. -/
def maybe_reshuffle_events (l : List EvmEvent) (i j : Nat) : List EvmEvent :=
  match l[i]?, l[j]? with
  | some spend, some receive =>
    let s := if j < i then i - 1 else i
    let rest := (l.eraseIdx j).eraseIdx s
    rest.take s ++ spend :: receive :: rest.drop s
  | _, _ => l

/-- A diagnostic emitted by the swap handler (decoder lines 175-180): the
`log.error` message identifies the transaction hash and which of the two
legs were found. -/
structure SwapDiag where
  tx_hash : String
  spend_found : Bool
  receive_found : Bool
  deriving DecidableEq, Repr

/-- Result of the swap handler. -/
structure SwapResult where
  events : List EvmEvent
  output : DecodingOutput
  diags : List SwapDiag
  err : Option DecoderError

/-- Translation of `_decode_swap` (decoder lines 148-187): runs the scan
loop; if either leg variable is still unset afterwards, logs one diagnostic
with the transaction hash and returns `DEFAULT_DECODING_OUTPUT` without
reshuffling; otherwise reshuffles the two legs to be adjacent. -/
def decode_swap (pa : List ChecksumEvmAddress) (tx_hash : String)
    (decoded_events : List EvmEvent) : SwapResult :=
  match swapScanGo pa decoded_events 0 none none with
  | ⟨events, _, _, some err⟩ =>
    ⟨events, DEFAULT_DECODING_OUTPUT, [], some err⟩
  | ⟨events, s, r, none⟩ =>
    match s, r with
    | some si, some ri =>
      ⟨maybe_reshuffle_events events si ri, DEFAULT_DECODING_OUTPUT, [],
        none⟩
    | s, r =>
      ⟨events, DEFAULT_DECODING_OUTPUT, [⟨tx_hash, s.isSome, r.isSome⟩],
        none⟩

/-- Result of dispatching a pool log. -/
structure PoolDecodeResult where
  events : List EvmEvent
  db : TokenDB
  output : DecodingOutput
  diags : List SwapDiag
  err : Option DecoderError

/-- Translation of `_decode_pool_events` (decoder lines 189-204): routes on
the log's first topic to the remove-liquidity, add-liquidity or swap
handler; unknown topics are a no-op. -/
def decode_pool_events (pools : List ChecksumEvmAddress) (db : TokenDB)
    (context : DecoderContext) : PoolDecodeResult :=
  match context.tx_log.topic0 with
  | .REMOVE_LIQUIDITY =>
    let w := decode_remove_liquidity_events pools context.tx_log
      context.decoded_events
    ⟨w.events, db, DEFAULT_DECODING_OUTPUT, [], w.err⟩
  | .ADD_LIQUIDITY =>
    let w := decode_add_liquidity_events pools context.tx_log
      context.decoded_events db
    ⟨w.events, w.db, DEFAULT_DECODING_OUTPUT, [], w.err⟩
  | .SWAP =>
    let r := decode_swap (protocol_addresses pools) context.tx_hash
      context.decoded_events
    ⟨r.events, db, r.output, r.diags, r.err⟩
  | _ => ⟨context.decoded_events, db, DEFAULT_DECODING_OUTPUT, [], none⟩

/-- Result of the gauge walk: final event list, token store, the
`found_event_modifying_balances` flag and the escaping exception. -/
structure GaugeWalk where
  events : List EvmEvent
  db : TokenDB
  refresh : Bool
  err : Option DecoderError

/-- Translation of the event loop of `_decode_gauge_events` (decoder lines
216-240).  `found` is the current value of
`found_event_modifying_balances`.  On a triple match the event is
reclassified in place according to the topic; on GAUGE_DEPOSIT the asset is
additionally resolved to an EVM token (after the event fields were already
mutated) and the write-once protocol tag is applied. -/
def gaugeGo (topic0 : LogTopic) (user gauge : ChecksumEvmAddress)
    (raw : Nat) :
    List EvmEvent → TokenDB → Bool → GaugeWalk
  | [], db, found => ⟨[], db, found, none⟩
  | e :: rest, db, found =>
    match e.asset.resolve_to_crypto_asset with
    | .error err => ⟨e :: rest, db, found, some err⟩
    | .ok crypto_asset =>
      if gaugeTripleMatch user gauge raw crypto_asset e then
        if topic0 = LogTopic.GAUGE_DEPOSIT then
          let e' := gaugeDepositReclass e crypto_asset gauge
          match e.asset.resolve_to_evm_token with
          | .error err => ⟨e' :: rest, db, true, some err⟩
          | .ok evm_token =>
            let db' := set_token_protocol_if_missing db evm_token
              AERODROME_POOL_PROTOCOL
            let w := gaugeGo topic0 user gauge raw rest db' true
            ⟨e' :: w.events, w.db, w.refresh, w.err⟩
        else if topic0 = LogTopic.GAUGE_WITHDRAW then
          let w := gaugeGo topic0 user gauge raw rest db true
          ⟨gaugeWithdrawReclass e crypto_asset gauge :: w.events, w.db,
            w.refresh, w.err⟩
        else
          let w := gaugeGo topic0 user gauge raw rest db true
          ⟨gaugeRewardReclass e crypto_asset gauge :: w.events, w.db,
            w.refresh, w.err⟩
      else
        let w := gaugeGo topic0 user gauge raw rest db found
        ⟨e :: w.events, w.db, w.refresh, w.err⟩

/-- Result of the gauge handler: on normal return the source returns
`DecodingOutput(refresh_balances=found_event_modifying_balances)`. -/
structure GaugeDecodeResult where
  events : List EvmEvent
  db : TokenDB
  output : DecodingOutput
  err : Option DecoderError

/-- Translation of `_decode_gauge_events` (decoder lines 206-241): ignores
topics other than GAUGE_DEPOSIT, GAUGE_WITHDRAW and CLAIM_REWARDS; extracts
the acting account from the log's second topic word, the gauge address from
the log emitter and the raw amount from the payload, then runs the event
loop and returns the refresh flag. -/
def decode_gauge_events (db : TokenDB) (context : DecoderContext) :
    GaugeDecodeResult :=
  if context.tx_log.topic0 = LogTopic.GAUGE_DEPOSIT ∨
      context.tx_log.topic0 = LogTopic.GAUGE_WITHDRAW ∨
      context.tx_log.topic0 = LogTopic.CLAIM_REWARDS then
    let user_or_contract_address := context.tx_log.topic1_address
    let gauge_address := context.tx_log.address
    let raw_amount := context.tx_log.data_int
    let w := gaugeGo context.tx_log.topic0 user_or_contract_address
      gauge_address raw_amount context.decoded_events db false
    ⟨w.events, w.db, ⟨w.refresh⟩, w.err⟩
  else
    ⟨context.decoded_events, db, DEFAULT_DECODING_OUTPUT, none⟩

/-- The effect of one add-liquidity loop iteration on a single event,
assuming the walk reaches it without a prior exception. -/
def addLiqStep (pools : List ChecksumEvmAddress) (tx_log : EvmTxReceiptLog)
    (e : EvmEvent) : EvmEvent :=
  match e.asset.resolve_to_crypto_asset with
  | .error _ => e
  | .ok crypto_asset =>
    if isAddLiqSpendCand pools e then addLiqSpendReclass e crypto_asset
    else if isAddLiqReceiveCand e then
      addLiqReceiveReclass e crypto_asset tx_log.address
    else e

/-- The effect of one remove-liquidity loop iteration on a single event. -/
def remLiqStep (pools : List ChecksumEvmAddress) (tx_log : EvmTxReceiptLog)
    (e : EvmEvent) : EvmEvent :=
  match e.asset.resolve_to_crypto_asset with
  | .error _ => e
  | .ok crypto_asset =>
    if isRemLiqSpendCand pools e then remLiqSpendReclass e crypto_asset
    else if isRemLiqReceiveCand pools e then
      remLiqReceiveReclass e crypto_asset tx_log.address
    else e

/-- The effect of one swap-scan loop iteration on a single event. -/
def swapStep (pa : List ChecksumEvmAddress) (e : EvmEvent) : EvmEvent :=
  match e.asset.resolve_to_crypto_asset with
  | .error _ => e
  | .ok crypto_asset =>
    if isSwapSpendCand pa e then swapSpendReclass e crypto_asset
    else if isSwapReceiveCand pa e then swapReceiveReclass e crypto_asset
    else e

/-- The effect of one gauge loop iteration on a single event. -/
def gaugeStep (topic0 : LogTopic) (user gauge : ChecksumEvmAddress)
    (raw : Nat) (e : EvmEvent) : EvmEvent :=
  match e.asset.resolve_to_crypto_asset with
  | .error _ => e
  | .ok crypto_asset =>
    if gaugeTripleMatch user gauge raw crypto_asset e then
      if topic0 = LogTopic.GAUGE_DEPOSIT then
        gaugeDepositReclass e crypto_asset gauge
      else if topic0 = LogTopic.GAUGE_WITHDRAW then
        gaugeWithdrawReclass e crypto_asset gauge
      else gaugeRewardReclass e crypto_asset gauge
    else e

/-- The position the `spend_event` / `receive_event` variable holds after
scanning a list of events starting at position `i` with current value
`acc`: the variable is overwritten at every match, so it ends at the last
matching position. -/
def lastIdxAux (p : EvmEvent → Prop) [DecidablePred p] :
    List EvmEvent → Nat → Option Nat → Option Nat
  | [], _, acc => acc
  | e :: rest, i, acc =>
    lastIdxAux p rest (i + 1) (if p e then some i else acc)

lemma resolve_crypto_of_evmToken (a : Asset)
    (h : a.kind = AssetKind.evmToken) :
    a.resolve_to_crypto_asset = .ok a := by
  unfold Asset.resolve_to_crypto_asset
  rw [h]

lemma resolve_evm_of_evmToken (a : Asset)
    (h : a.kind = AssetKind.evmToken) :
    a.resolve_to_evm_token = .ok a := by
  unfold Asset.resolve_to_evm_token
  rw [h]

lemma decode_add_liquidity_events_ok (pools : List ChecksumEvmAddress)
    (tx_log : EvmTxReceiptLog) :
    ∀ (l : List EvmEvent) (db : TokenDB),
      (∀ e ∈ l, e.asset.kind = AssetKind.evmToken) →
      (decode_add_liquidity_events pools tx_log l db).events
          = l.map (addLiqStep pools tx_log) ∧
      (decode_add_liquidity_events pools tx_log l db).err = none
  | [], _, _ => ⟨rfl, rfl⟩
  | e :: rest, db, h => by
    have he : e.asset.kind = AssetKind.evmToken := h e (by simp)
    have hrest : ∀ x ∈ rest, x.asset.kind = AssetKind.evmToken :=
      fun x hx => h x (by simp [hx])
    by_cases h1 : isAddLiqSpendCand pools e
    · have ih := decode_add_liquidity_events_ok pools tx_log rest db hrest
      simp only [decode_add_liquidity_events, addLiqStep,
        resolve_crypto_of_evmToken e.asset he, List.map_cons, if_pos h1]
      simp [ih.1, ih.2]
    · by_cases h2 : isAddLiqReceiveCand e
      · have ih := decode_add_liquidity_events_ok pools tx_log rest
          (set_token_protocol_if_missing db e.asset AERODROME_POOL_PROTOCOL)
          hrest
        simp only [decode_add_liquidity_events, addLiqStep,
          resolve_crypto_of_evmToken e.asset he,
          resolve_evm_of_evmToken e.asset he, List.map_cons, if_neg h1,
          if_pos h2]
        simp [ih.1, ih.2]
      · have ih := decode_add_liquidity_events_ok pools tx_log rest db hrest
        simp only [decode_add_liquidity_events, addLiqStep,
          resolve_crypto_of_evmToken e.asset he, List.map_cons, if_neg h1,
          if_neg h2]
        simp [ih.1, ih.2]

lemma decode_remove_liquidity_events_ok (pools : List ChecksumEvmAddress)
    (tx_log : EvmTxReceiptLog) :
    ∀ (l : List EvmEvent),
      (∀ e ∈ l, e.asset.kind = AssetKind.evmToken) →
      (decode_remove_liquidity_events pools tx_log l).events
          = l.map (remLiqStep pools tx_log) ∧
      (decode_remove_liquidity_events pools tx_log l).err = none
  | [], _ => ⟨rfl, rfl⟩
  | e :: rest, h => by
    have he : e.asset.kind = AssetKind.evmToken := h e (by simp)
    have hrest : ∀ x ∈ rest, x.asset.kind = AssetKind.evmToken :=
      fun x hx => h x (by simp [hx])
    have ih := decode_remove_liquidity_events_ok pools tx_log rest hrest
    by_cases h1 : isRemLiqSpendCand pools e
    · simp only [decode_remove_liquidity_events, remLiqStep,
        resolve_crypto_of_evmToken e.asset he, List.map_cons, if_pos h1]
      simp [ih.1, ih.2]
    · by_cases h2 : isRemLiqReceiveCand pools e
      · simp only [decode_remove_liquidity_events, remLiqStep,
          resolve_crypto_of_evmToken e.asset he, List.map_cons, if_neg h1,
          if_pos h2]
        simp [ih.1, ih.2]
      · simp only [decode_remove_liquidity_events, remLiqStep,
          resolve_crypto_of_evmToken e.asset he, List.map_cons, if_neg h1,
          if_neg h2]
        simp [ih.1, ih.2]

lemma swapScanGo_ok (pa : List ChecksumEvmAddress) :
    ∀ (l : List EvmEvent) (i : Nat) (s r : Option Nat),
      (∀ e ∈ l, e.asset.kind = AssetKind.evmToken) →
      swapScanGo pa l i s r = ⟨l.map (swapStep pa),
        lastIdxAux (isSwapSpendCand pa) l i s,
        lastIdxAux (isSwapReceiveCand pa) l i r, none⟩
  | [], _, _, _, _ => rfl
  | e :: rest, i, s, r, h => by
    have he : e.asset.kind = AssetKind.evmToken := h e (by simp)
    have hrest : ∀ x ∈ rest, x.asset.kind = AssetKind.evmToken :=
      fun x hx => h x (by simp [hx])
    by_cases h1 : isSwapSpendCand pa e
    · have hnr : ¬ isSwapReceiveCand pa e :=
        fun hc => absurd (h1.1.symm.trans hc.1) (by decide)
      have ih := swapScanGo_ok pa rest (i + 1) (some i) r hrest
      simp only [swapScanGo, swapStep, lastIdxAux,
        resolve_crypto_of_evmToken e.asset he, List.map_cons, if_pos h1,
        if_neg hnr]
      simp [ih]
    · by_cases h2 : isSwapReceiveCand pa e
      · have ih := swapScanGo_ok pa rest (i + 1) s (some i) hrest
        simp only [swapScanGo, swapStep, lastIdxAux,
          resolve_crypto_of_evmToken e.asset he, List.map_cons, if_neg h1,
          if_pos h2]
        simp [ih]
      · have ih := swapScanGo_ok pa rest (i + 1) s r hrest
        simp only [swapScanGo, swapStep, lastIdxAux,
          resolve_crypto_of_evmToken e.asset he, List.map_cons, if_neg h1,
          if_neg h2]
        simp [ih]

lemma gaugeGo_ok (topic0 : LogTopic) (user gauge : ChecksumEvmAddress)
    (raw : Nat) :
    ∀ (l : List EvmEvent) (db : TokenDB) (found : Bool),
      (∀ e ∈ l, e.asset.kind = AssetKind.evmToken) →
      (gaugeGo topic0 user gauge raw l db found).events
          = l.map (gaugeStep topic0 user gauge raw) ∧
      (gaugeGo topic0 user gauge raw l db found).err = none ∧
      (gaugeGo topic0 user gauge raw l db found).refresh
          = (found || l.any fun e =>
              decide (gaugeTripleMatch user gauge raw e.asset e))
  | [], _, _, _ => ⟨rfl, rfl, by simp [gaugeGo]⟩
  | e :: rest, db, found, h => by
    have he : e.asset.kind = AssetKind.evmToken := h e (by simp)
    have hrest : ∀ x ∈ rest, x.asset.kind = AssetKind.evmToken :=
      fun x hx => h x (by simp [hx])
    by_cases hm : gaugeTripleMatch user gauge raw e.asset e
    · have hd : decide (gaugeTripleMatch user gauge raw e.asset e) = true :=
        decide_eq_true hm
      by_cases ht1 : topic0 = LogTopic.GAUGE_DEPOSIT
      · have ih := gaugeGo_ok topic0 user gauge raw rest
          (set_token_protocol_if_missing db e.asset AERODROME_POOL_PROTOCOL)
          true hrest
        simp only [gaugeGo, gaugeStep, resolve_crypto_of_evmToken e.asset he,
          resolve_evm_of_evmToken e.asset he, List.map_cons, List.any_cons,
          if_pos hm, if_pos ht1, hd]
        simp [ih.1, ih.2.1, ih.2.2]
      · by_cases ht2 : topic0 = LogTopic.GAUGE_WITHDRAW
        · have ih := gaugeGo_ok topic0 user gauge raw rest db true hrest
          simp only [gaugeGo, gaugeStep,
            resolve_crypto_of_evmToken e.asset he, List.map_cons,
            List.any_cons, if_pos hm, if_neg ht1, if_pos ht2, hd]
          simp [ih.1, ih.2.1, ih.2.2]
        · have ih := gaugeGo_ok topic0 user gauge raw rest db true hrest
          simp only [gaugeGo, gaugeStep,
            resolve_crypto_of_evmToken e.asset he, List.map_cons,
            List.any_cons, if_pos hm, if_neg ht1, if_neg ht2, hd]
          simp [ih.1, ih.2.1, ih.2.2]
    · have hd : decide (gaugeTripleMatch user gauge raw e.asset e) = false :=
        decide_eq_false hm
      have ih := gaugeGo_ok topic0 user gauge raw rest db found hrest
      simp only [gaugeGo, gaugeStep, resolve_crypto_of_evmToken e.asset he,
        List.map_cons, List.any_cons, if_neg hm, hd]
      simp [ih.1, ih.2.1, ih.2.2]

lemma set_token_protocol_if_missing_preserves (db : TokenDB)
    (evm_token : Asset) (protocol : String) (id : Nat) (p : String)
    (h : db id = some p) :
    set_token_protocol_if_missing db evm_token protocol id = some p := by
  unfold set_token_protocol_if_missing
  by_cases hid : id = evm_token.identifier
  · subst hid
    simp [h]
  · simp [if_neg hid, h]

lemma set_token_protocol_if_missing_sets (db : TokenDB) (evm_token : Asset)
    (protocol : String) (h : db evm_token.identifier = none) :
    set_token_protocol_if_missing db evm_token protocol
      evm_token.identifier = some protocol := by
  unfold set_token_protocol_if_missing
  simp [h]

lemma decode_add_liquidity_events_db_preserves
    (pools : List ChecksumEvmAddress) (tx_log : EvmTxReceiptLog) :
    ∀ (l : List EvmEvent) (db : TokenDB) (id : Nat) (p : String),
      db id = some p →
      (decode_add_liquidity_events pools tx_log l db).db id = some p
  | [], _, _, _, h => h
  | e :: rest, db, id, p, h => by
    simp only [decode_add_liquidity_events]
    cases hres : e.asset.resolve_to_crypto_asset with
    | error err => exact h
    | ok crypto_asset =>
      by_cases h1 : isAddLiqSpendCand pools e
      · simp only [if_pos h1]
        exact decode_add_liquidity_events_db_preserves pools tx_log rest db
          id p h
      · by_cases h2 : isAddLiqReceiveCand e
        · simp only [if_neg h1, if_pos h2]
          cases htok : e.asset.resolve_to_evm_token with
          | error err => exact h
          | ok evm_token =>
            exact decode_add_liquidity_events_db_preserves pools tx_log rest
              _ id p
              (set_token_protocol_if_missing_preserves db evm_token
                AERODROME_POOL_PROTOCOL id p h)
        · simp only [if_neg h1, if_neg h2]
          exact decode_add_liquidity_events_db_preserves pools tx_log rest db
            id p h

lemma gaugeGo_db_preserves (topic0 : LogTopic)
    (user gauge : ChecksumEvmAddress) (raw : Nat) :
    ∀ (l : List EvmEvent) (db : TokenDB) (found : Bool) (id : Nat)
      (p : String), db id = some p →
      (gaugeGo topic0 user gauge raw l db found).db id = some p
  | [], _, _, _, _, h => h
  | e :: rest, db, found, id, p, h => by
    simp only [gaugeGo]
    cases hres : e.asset.resolve_to_crypto_asset with
    | error err => exact h
    | ok crypto_asset =>
      by_cases hm : gaugeTripleMatch user gauge raw crypto_asset e
      · by_cases ht1 : topic0 = LogTopic.GAUGE_DEPOSIT
        · simp only [if_pos hm, if_pos ht1]
          cases htok : e.asset.resolve_to_evm_token with
          | error err => exact h
          | ok evm_token =>
            exact gaugeGo_db_preserves topic0 user gauge raw rest _ true id p
              (set_token_protocol_if_missing_preserves db evm_token
                AERODROME_POOL_PROTOCOL id p h)
        · by_cases ht2 : topic0 = LogTopic.GAUGE_WITHDRAW
          · simp only [if_pos hm, if_neg ht1, if_pos ht2]
            exact gaugeGo_db_preserves topic0 user gauge raw rest db true
              id p h
          · simp only [if_pos hm, if_neg ht1, if_neg ht2]
            exact gaugeGo_db_preserves topic0 user gauge raw rest db true
              id p h
      · simp only [if_neg hm]
        exact gaugeGo_db_preserves topic0 user gauge raw rest db found id p h

lemma lastIdxAux_of_none (p : EvmEvent → Prop) [DecidablePred p] :
    ∀ (l : List EvmEvent) (i : Nat) (acc : Option Nat),
      (∀ e ∈ l, ¬ p e) → lastIdxAux p l i acc = acc
  | [], _, _, _ => rfl
  | e :: rest, i, acc, h => by
    have he : ¬ p e := h e (by simp)
    simp only [lastIdxAux, if_neg he]
    exact lastIdxAux_of_none p rest (i + 1) acc fun x hx => h x (by simp [hx])

lemma lastIdxAux_of_unique (p : EvmEvent → Prop) [DecidablePred p] :
    ∀ (l : List EvmEvent) (k : Nat) (c : EvmEvent), l[k]? = some c → p c →
      (∀ (m : Nat) (x : EvmEvent), m ≠ k → l[m]? = some x → ¬ p x) →
      ∀ (i : Nat) (acc : Option Nat), lastIdxAux p l i acc = some (i + k)
  | [], k, c, hk, _, _, _, _ => by simp at hk
  | e :: rest, 0, c, hk, hc, huniq, i, acc => by
    have hec : e = c := Option.some.inj (by simpa using hk)
    have hrest : ∀ x ∈ rest, ¬ p x := by
      intro x hx
      obtain ⟨m, hm⟩ := List.mem_iff_getElem?.1 hx
      exact huniq (m + 1) x (by omega) (by simpa using hm)
    simp only [lastIdxAux, hec, if_pos hc]
    simpa using lastIdxAux_of_none p rest (i + 1) (some i) hrest
  | e :: rest, k + 1, c, hk, hc, huniq, i, acc => by
    have hne : ¬ p e := huniq 0 e (by omega) (by simp)
    have hrec := lastIdxAux_of_unique p rest k c (by simpa using hk) hc
      (fun m x hm hmx => huniq (m + 1) x (by omega) (by simpa using hmx))
      (i + 1) acc
    simp only [lastIdxAux, if_neg hne, hrec]
    congr 1
    omega

lemma decode_add_liquidity_events_err (pools : List ChecksumEvmAddress)
    (tx_log : EvmTxReceiptLog) :
    ∀ (pre : List EvmEvent),
      (∀ e ∈ pre, e.asset.kind = AssetKind.evmToken) →
      ∀ (bad : EvmEvent) (err : DecoderError),
        bad.asset.resolve_to_crypto_asset = .error err →
        ∀ (post : List EvmEvent) (db : TokenDB),
          (decode_add_liquidity_events pools tx_log (pre ++ bad :: post)
            db).events = pre.map (addLiqStep pools tx_log) ++ bad :: post ∧
          (decode_add_liquidity_events pools tx_log (pre ++ bad :: post)
            db).err = some err
  | [], _, bad, err, hbad, post, db => by
    simp [decode_add_liquidity_events, hbad]
  | e :: pre, h, bad, err, hbad, post, db => by
    have he : e.asset.kind = AssetKind.evmToken := h e (by simp)
    have hpre : ∀ x ∈ pre, x.asset.kind = AssetKind.evmToken :=
      fun x hx => h x (by simp [hx])
    by_cases h1 : isAddLiqSpendCand pools e
    · have ih := decode_add_liquidity_events_err pools tx_log pre hpre bad
        err hbad post db
      simp only [List.cons_append, decode_add_liquidity_events, addLiqStep,
        resolve_crypto_of_evmToken e.asset he, List.map_cons, if_pos h1]
      simp [ih.1, ih.2]
    · by_cases h2 : isAddLiqReceiveCand e
      · have ih := decode_add_liquidity_events_err pools tx_log pre hpre bad
          err hbad post
          (set_token_protocol_if_missing db e.asset AERODROME_POOL_PROTOCOL)
        simp only [List.cons_append, decode_add_liquidity_events, addLiqStep,
          resolve_crypto_of_evmToken e.asset he,
          resolve_evm_of_evmToken e.asset he, List.map_cons, if_neg h1,
          if_pos h2]
        simp [ih.1, ih.2]
      · have ih := decode_add_liquidity_events_err pools tx_log pre hpre bad
          err hbad post db
        simp only [List.cons_append, decode_add_liquidity_events, addLiqStep,
          resolve_crypto_of_evmToken e.asset he, List.map_cons, if_neg h1,
          if_neg h2]
        simp [ih.1, ih.2]

lemma decode_remove_liquidity_events_err (pools : List ChecksumEvmAddress)
    (tx_log : EvmTxReceiptLog) :
    ∀ (pre : List EvmEvent),
      (∀ e ∈ pre, e.asset.kind = AssetKind.evmToken) →
      ∀ (bad : EvmEvent) (err : DecoderError),
        bad.asset.resolve_to_crypto_asset = .error err →
        ∀ (post : List EvmEvent),
          (decode_remove_liquidity_events pools tx_log
            (pre ++ bad :: post)).events
              = pre.map (remLiqStep pools tx_log) ++ bad :: post ∧
          (decode_remove_liquidity_events pools tx_log
            (pre ++ bad :: post)).err = some err
  | [], _, bad, err, hbad, post => by
    simp [decode_remove_liquidity_events, hbad]
  | e :: pre, h, bad, err, hbad, post => by
    have he : e.asset.kind = AssetKind.evmToken := h e (by simp)
    have hpre : ∀ x ∈ pre, x.asset.kind = AssetKind.evmToken :=
      fun x hx => h x (by simp [hx])
    have ih := decode_remove_liquidity_events_err pools tx_log pre hpre bad
      err hbad post
    by_cases h1 : isRemLiqSpendCand pools e
    · simp only [List.cons_append, decode_remove_liquidity_events,
        remLiqStep, resolve_crypto_of_evmToken e.asset he, List.map_cons,
        if_pos h1]
      simp [ih.1, ih.2]
    · by_cases h2 : isRemLiqReceiveCand pools e
      · simp only [List.cons_append, decode_remove_liquidity_events,
          remLiqStep, resolve_crypto_of_evmToken e.asset he, List.map_cons,
          if_neg h1, if_pos h2]
        simp [ih.1, ih.2]
      · simp only [List.cons_append, decode_remove_liquidity_events,
          remLiqStep, resolve_crypto_of_evmToken e.asset he, List.map_cons,
          if_neg h1, if_neg h2]
        simp [ih.1, ih.2]

lemma swapScanGo_err (pa : List ChecksumEvmAddress) :
    ∀ (pre : List EvmEvent),
      (∀ e ∈ pre, e.asset.kind = AssetKind.evmToken) →
      ∀ (bad : EvmEvent) (err : DecoderError),
        bad.asset.resolve_to_crypto_asset = .error err →
        ∀ (post : List EvmEvent) (i : Nat) (s r : Option Nat),
          (swapScanGo pa (pre ++ bad :: post) i s r).events
              = pre.map (swapStep pa) ++ bad :: post ∧
          (swapScanGo pa (pre ++ bad :: post) i s r).err = some err
  | [], _, bad, err, hbad, post, i, s, r => by
    simp [swapScanGo, hbad]
  | e :: pre, h, bad, err, hbad, post, i, s, r => by
    have he : e.asset.kind = AssetKind.evmToken := h e (by simp)
    have hpre : ∀ x ∈ pre, x.asset.kind = AssetKind.evmToken :=
      fun x hx => h x (by simp [hx])
    by_cases h1 : isSwapSpendCand pa e
    · have ih := swapScanGo_err pa pre hpre bad err hbad post (i + 1)
        (some i) r
      simp only [List.cons_append, swapScanGo, swapStep,
        resolve_crypto_of_evmToken e.asset he, List.map_cons, if_pos h1]
      simp [ih.1, ih.2]
    · by_cases h2 : isSwapReceiveCand pa e
      · have ih := swapScanGo_err pa pre hpre bad err hbad post (i + 1) s
          (some i)
        simp only [List.cons_append, swapScanGo, swapStep,
          resolve_crypto_of_evmToken e.asset he, List.map_cons, if_neg h1,
          if_pos h2]
        simp [ih.1, ih.2]
      · have ih := swapScanGo_err pa pre hpre bad err hbad post (i + 1) s r
        simp only [List.cons_append, swapScanGo, swapStep,
          resolve_crypto_of_evmToken e.asset he, List.map_cons, if_neg h1,
          if_neg h2]
        simp [ih.1, ih.2]

lemma gaugeGo_err (topic0 : LogTopic) (user gauge : ChecksumEvmAddress)
    (raw : Nat) :
    ∀ (pre : List EvmEvent),
      (∀ e ∈ pre, e.asset.kind = AssetKind.evmToken) →
      ∀ (bad : EvmEvent) (err : DecoderError),
        bad.asset.resolve_to_crypto_asset = .error err →
        ∀ (post : List EvmEvent) (db : TokenDB) (found : Bool),
          (gaugeGo topic0 user gauge raw (pre ++ bad :: post) db
            found).events
              = pre.map (gaugeStep topic0 user gauge raw) ++ bad :: post ∧
          (gaugeGo topic0 user gauge raw (pre ++ bad :: post) db
            found).err = some err
  | [], _, bad, err, hbad, post, db, found => by
    simp [gaugeGo, hbad]
  | e :: pre, h, bad, err, hbad, post, db, found => by
    have he : e.asset.kind = AssetKind.evmToken := h e (by simp)
    have hpre : ∀ x ∈ pre, x.asset.kind = AssetKind.evmToken :=
      fun x hx => h x (by simp [hx])
    by_cases hm : gaugeTripleMatch user gauge raw e.asset e
    · by_cases ht1 : topic0 = LogTopic.GAUGE_DEPOSIT
      · have ih := gaugeGo_err topic0 user gauge raw pre hpre bad err hbad
          post
          (set_token_protocol_if_missing db e.asset AERODROME_POOL_PROTOCOL)
          true
        simp only [List.cons_append, gaugeGo, gaugeStep,
          resolve_crypto_of_evmToken e.asset he,
          resolve_evm_of_evmToken e.asset he, List.map_cons, if_pos hm,
          if_pos ht1]
        simp [ih.1, ih.2]
      · by_cases ht2 : topic0 = LogTopic.GAUGE_WITHDRAW
        · have ih := gaugeGo_err topic0 user gauge raw pre hpre bad err hbad
            post db true
          simp only [List.cons_append, gaugeGo, gaugeStep,
            resolve_crypto_of_evmToken e.asset he, List.map_cons, if_pos hm,
            if_neg ht1, if_pos ht2]
          simp [ih.1, ih.2]
        · have ih := gaugeGo_err topic0 user gauge raw pre hpre bad err hbad
            post db true
          simp only [List.cons_append, gaugeGo, gaugeStep,
            resolve_crypto_of_evmToken e.asset he, List.map_cons, if_pos hm,
            if_neg ht1, if_neg ht2]
          simp [ih.1, ih.2]
    · have ih := gaugeGo_err topic0 user gauge raw pre hpre bad err hbad
        post db found
      simp only [List.cons_append, gaugeGo, gaugeStep,
        resolve_crypto_of_evmToken e.asset he, List.map_cons, if_neg hm]
      simp [ih.1, ih.2]

lemma getElem?_append_cons {α : Type*} :
    ∀ (pre : List α) (a : α) (suf : List α),
      (pre ++ a :: suf)[pre.length]? = some a
  | [], _, _ => by simp
  | p :: pre, a, suf => by simpa using getElem?_append_cons pre a suf

lemma getElem?_append_cons_of_length {α : Type*} (pre : List α) (a : α)
    (suf : List α) (n : Nat) (h : pre.length = n) :
    (pre ++ a :: suf)[n]? = some a := h ▸ getElem?_append_cons pre a suf

lemma take_left_of_length {α : Type*} (pre suf : List α) (n : Nat)
    (h : pre.length = n) : (pre ++ suf).take n = pre :=
  h ▸ List.take_left pre suf

lemma drop_left_of_length {α : Type*} (pre suf : List α) (n : Nat)
    (h : pre.length = n) : (pre ++ suf).drop n = suf :=
  h ▸ List.drop_left pre suf

lemma eraseIdx_map (f : EvmEvent → EvmEvent) :
    ∀ (l : List EvmEvent) (k : Nat),
      (l.map f).eraseIdx k = (l.eraseIdx k).map f
  | [], _ => rfl
  | _ :: _, 0 => rfl
  | e :: rest, k + 1 => by
    simp [List.eraseIdx_cons_succ, eraseIdx_map f rest k]

lemma maybe_reshuffle_events_spec (l : List EvmEvent) (i j st : Nat)
    (hi : i < l.length) (hj : j < l.length) (hij : i ≠ j)
    (hst : st = if j < i then i - 1 else i) :
    (maybe_reshuffle_events l i j)[st]? = l[i]? ∧
    (maybe_reshuffle_events l i j)[st + 1]? = l[j]? ∧
    (maybe_reshuffle_events l i j).take st
        ++ (maybe_reshuffle_events l i j).drop (st + 2)
      = (l.eraseIdx j).eraseIdx st ∧
    (maybe_reshuffle_events l i j).length = l.length := by
  have hspend : l[i]? = some l[i] := List.getElem?_eq_getElem hi
  have hreceive : l[j]? = some l[j] := List.getElem?_eq_getElem hj
  have hY : (l.eraseIdx j).length = l.length - 1 :=
    List.length_eraseIdx_of_lt hj
  have hstY : st < (l.eraseIdx j).length := by
    rw [hY, hst]
    split <;> omega
  have hrest : ((l.eraseIdx j).eraseIdx st).length = l.length - 2 := by
    rw [List.length_eraseIdx_of_lt hstY, hY]
    omega
  have hsr : st ≤ ((l.eraseIdx j).eraseIdx st).length := by
    rw [hrest, hst]
    split <;> omega
  have htake : (((l.eraseIdx j).eraseIdx st).take st).length = st := by
    rw [List.length_take]
    omega
  have hR : maybe_reshuffle_events l i j
      = ((l.eraseIdx j).eraseIdx st).take st
        ++ l[i] :: l[j] :: ((l.eraseIdx j).eraseIdx st).drop st := by
    unfold maybe_reshuffle_events
    rw [hspend, hreceive, ← hst]
  refine ⟨?_, ?_, ?_, ?_⟩
  · rw [hR, hspend]
    exact getElem?_append_cons_of_length _ _ _ st htake
  · have hR' : maybe_reshuffle_events l i j
        = (((l.eraseIdx j).eraseIdx st).take st ++ [l[i]])
          ++ l[j] :: ((l.eraseIdx j).eraseIdx st).drop st := by
      rw [hR, List.append_assoc, List.singleton_append]
    have hlen : (((l.eraseIdx j).eraseIdx st).take st ++ [l[i]]).length
        = st + 1 := by
      rw [List.length_append, htake, List.length_singleton]
    rw [hR', hreceive]
    exact getElem?_append_cons_of_length _ _ _ (st + 1) hlen
  · have hR' : maybe_reshuffle_events l i j
        = (((l.eraseIdx j).eraseIdx st).take st ++ [l[i], l[j]])
          ++ ((l.eraseIdx j).eraseIdx st).drop st := by
      rw [hR, List.append_assoc]
      rfl
    have hlen : (((l.eraseIdx j).eraseIdx st).take st ++ [l[i], l[j]]).length
        = st + 2 := by
      rw [List.length_append, htake]
      rfl
    have h1 : (maybe_reshuffle_events l i j).take st
        = ((l.eraseIdx j).eraseIdx st).take st := by
      rw [hR]
      exact take_left_of_length _ _ st htake
    have h2 : (maybe_reshuffle_events l i j).drop (st + 2)
        = ((l.eraseIdx j).eraseIdx st).drop st := by
      rw [hR']
      exact drop_left_of_length _ _ (st + 2) hlen
    rw [h1, h2, List.take_append_drop]
  · rw [hR]
    simp only [List.length_append, List.length_cons, htake,
      List.length_drop]
    omega

lemma doubleErase_getElem? (l : List EvmEvent) (i j st : Nat)
    (hst : st = if j < i then i - 1 else i) (n : Nat) :
    ∃ (m : Nat), m ≠ i ∧ m ≠ j ∧
      ((l.eraseIdx j).eraseIdx st)[n]? = l[m]? := by
  by_cases hji : j < i
  · rw [if_pos hji] at hst
    rw [hst]
    have hX : ((l.eraseIdx j).eraseIdx (i - 1))[n]?
        = if n < i - 1 then (l.eraseIdx j)[n]? else (l.eraseIdx j)[n + 1]? :=
      List.getElem?_eraseIdx _ _ _
    by_cases hn : n < i - 1
    · rw [if_pos hn, List.getElem?_eraseIdx l j n] at hX
      by_cases hn' : n < j
      · rw [if_pos hn'] at hX
        exact ⟨n, by omega, by omega, hX⟩
      · rw [if_neg hn'] at hX
        exact ⟨n + 1, by omega, by omega, hX⟩
    · rw [if_neg hn, List.getElem?_eraseIdx l j (n + 1)] at hX
      by_cases hn' : n + 1 < j
      · rw [if_pos hn'] at hX
        exact ⟨n + 1, by omega, by omega, hX⟩
      · rw [if_neg hn'] at hX
        exact ⟨n + 2, by omega, by omega, hX⟩
  · rw [if_neg hji] at hst
    rw [hst]
    have hX : ((l.eraseIdx j).eraseIdx i)[n]?
        = if n < i then (l.eraseIdx j)[n]? else (l.eraseIdx j)[n + 1]? :=
      List.getElem?_eraseIdx _ _ _
    by_cases hn : n < i
    · rw [if_pos hn, List.getElem?_eraseIdx l j n] at hX
      by_cases hn' : n < j
      · rw [if_pos hn'] at hX
        exact ⟨n, by omega, by omega, hX⟩
      · rw [if_neg hn'] at hX
        exact ⟨n + 1, by omega, by omega, hX⟩
    · rw [if_neg hn, List.getElem?_eraseIdx l j (n + 1)] at hX
      by_cases hn' : n + 1 < j
      · rw [if_pos hn'] at hX
        exact ⟨n + 1, by omega, by omega, hX⟩
      · rw [if_neg hn'] at hX
        exact ⟨n + 2, by omega, by omega, hX⟩

lemma doubleErase_map_id (f : EvmEvent → EvmEvent) (l : List EvmEvent)
    (i j st : Nat) (hst : st = if j < i then i - 1 else i)
    (h : ∀ (m : Nat) (x : EvmEvent), m ≠ i → m ≠ j → l[m]? = some x →
      f x = x) :
    ((l.eraseIdx j).eraseIdx st).map f = (l.eraseIdx j).eraseIdx st := by
  apply List.ext_getElem?
  intro n
  rw [List.getElem?_map]
  obtain ⟨m, hmi, hmj, hm⟩ := doubleErase_getElem? l i j st hst n
  rw [hm]
  cases hx : l[m]? with
  | none => rfl
  | some x => simp [h m x hmi hmj hx]

lemma lt_of_getElem?_some {l : List EvmEvent} {n : Nat} {a : EvmEvent}
    (h : l[n]? = some a) : n < l.length :=
  (List.getElem?_eq_some.1 h).1

lemma mem_of_getElem?_some {l : List EvmEvent} {n : Nat} {a : EvmEvent}
    (h : l[n]? = some a) : a ∈ l := by
  obtain ⟨hlt, he⟩ := List.getElem?_eq_some.1 h
  exact he ▸ List.getElem_mem hlt

lemma swapStep_of_not_cand (pa : List ChecksumEvmAddress) (e : EvmEvent)
    (hk : e.asset.kind = AssetKind.evmToken)
    (h1 : ¬ isSwapSpendCand pa e) (h2 : ¬ isSwapReceiveCand pa e) :
    swapStep pa e = e := by
  simp only [swapStep, resolve_crypto_of_evmToken e.asset hk, if_neg h1,
    if_neg h2]

lemma swapStep_of_spend (pa : List ChecksumEvmAddress) (e : EvmEvent)
    (hk : e.asset.kind = AssetKind.evmToken)
    (h1 : isSwapSpendCand pa e) :
    swapStep pa e = swapSpendReclass e e.asset := by
  simp only [swapStep, resolve_crypto_of_evmToken e.asset hk, if_pos h1]

lemma swapStep_of_receive (pa : List ChecksumEvmAddress) (e : EvmEvent)
    (hk : e.asset.kind = AssetKind.evmToken)
    (h2 : isSwapReceiveCand pa e) :
    swapStep pa e = swapReceiveReclass e e.asset := by
  have h1 : ¬ isSwapSpendCand pa e :=
    fun hc => absurd (hc.1.symm.trans h2.1) (by decide)
  simp only [swapStep, resolve_crypto_of_evmToken e.asset hk, if_neg h1,
    if_pos h2]

lemma gaugeStep_of_no_match (topic0 : LogTopic)
    (user gauge : ChecksumEvmAddress) (raw : Nat) (e : EvmEvent)
    (hk : e.asset.kind = AssetKind.evmToken)
    (hm : ¬ gaugeTripleMatch user gauge raw e.asset e) :
    gaugeStep topic0 user gauge raw e = e := by
  simp only [gaugeStep, resolve_crypto_of_evmToken e.asset hk, if_neg hm]

/-- The reclassification the gauge handler applies to a matching event,
by topic. -/
def gaugeReclassFor (topic0 : LogTopic) (e : EvmEvent)
    (gauge : ChecksumEvmAddress) : EvmEvent :=
  if topic0 = LogTopic.GAUGE_DEPOSIT then gaugeDepositReclass e e.asset gauge
  else if topic0 = LogTopic.GAUGE_WITHDRAW then
    gaugeWithdrawReclass e e.asset gauge
  else gaugeRewardReclass e e.asset gauge

lemma gaugeStep_of_match (topic0 : LogTopic)
    (user gauge : ChecksumEvmAddress) (raw : Nat) (e : EvmEvent)
    (hk : e.asset.kind = AssetKind.evmToken)
    (hm : gaugeTripleMatch user gauge raw e.asset e) :
    gaugeStep topic0 user gauge raw e = gaugeReclassFor topic0 e gauge := by
  simp only [gaugeStep, gaugeReclassFor,
    resolve_crypto_of_evmToken e.asset hk, if_pos hm]

/-- An 18-decimal LP token fixture. -/
def lpToken : Asset := ⟨1001, AssetKind.evmToken, "vAMM-WETH/USDbC", 18⟩

/-- An 18-decimal token fixture. -/
def wethToken : Asset := ⟨1002, AssetKind.evmToken, "WETH", 18⟩

/-- A 6-decimal token fixture. -/
def usdbcToken : Asset := ⟨1003, AssetKind.evmToken, "USDbC", 6⟩

/-- An asset fixture whose resolution raises `UnknownAsset`. -/
def badAsset : Asset := ⟨1004, AssetKind.unknownId, "BAD", 18⟩

/-- The empty token-protocol store. -/
def emptyDB : TokenDB := fun _ => none

/-- A user account fixture. -/
def userAddr : ChecksumEvmAddress := 0x15718b9B0DAdE1C17d8329A13bB9553f3B38e172

/-- A pool address fixture. -/
def poolAddr : ChecksumEvmAddress := 0xB4885Bc63399BF5518b994c1d0C153334Ee579D0

/-- A gauge address fixture. -/
def gaugeAddr : ChecksumEvmAddress := 0xeca7Ff920E7162334634c721133F3183B83B0323

/-- An untouched gas-fee event (matches no reclassification shape). -/
def gasEvent : EvmEvent :=
  { event_type := HistoryEventType.SPEND
    event_subtype := HistoryEventSubType.FEE
    asset := wethToken
    balance := ⟨1 / 1000⟩
    location_label := some userAddr }

/-- An upstream SPEND/NONE swap leg addressed to the router. -/
def swapSpendEvent : EvmEvent :=
  { event_type := HistoryEventType.SPEND
    event_subtype := HistoryEventSubType.NONE
    asset := wethToken
    balance := ⟨1 / 10000⟩
    location_label := some userAddr
    address := some ROUTER }

/-- A second upstream SPEND/NONE swap leg addressed to a pool. -/
def swapSpendEvent2 : EvmEvent :=
  { event_type := HistoryEventType.SPEND
    event_subtype := HistoryEventSubType.NONE
    asset := usdbcToken
    balance := ⟨1 / 100⟩
    location_label := some userAddr
    address := some poolAddr }

/-- An upstream RECEIVE/NONE swap leg addressed to a pool. -/
def swapReceiveEvent : EvmEvent :=
  { event_type := HistoryEventType.RECEIVE
    event_subtype := HistoryEventSubType.NONE
    asset := usdbcToken
    balance := ⟨163519 / 1000000⟩
    location_label := some userAddr
    address := some poolAddr }

/-- An event whose asset reference is unresolvable. -/
def badEvent : EvmEvent :=
  { event_type := HistoryEventType.INFORMATIONAL
    event_subtype := HistoryEventSubType.APPROVE
    asset := badAsset
    balance := ⟨2 / 1000000⟩
    location_label := some userAddr }

/-- The upstream event of the gauge-deposit scenario: 18-decimal asset,
`balance.amount = 0.000000004023175857`. -/
def gaugeStakeEvent : EvmEvent :=
  { event_type := HistoryEventType.SPEND
    event_subtype := HistoryEventSubType.NONE
    asset := lpToken
    balance := ⟨4023175857 / 10 ^ 18⟩
    location_label := some userAddr
    address := some gaugeAddr }

/-- An already fully reclassified gauge-deposit event; its correlation
triple still matches the gauge log. -/
def gaugeStakedEvent : EvmEvent :=
  { event_type := HistoryEventType.DEPOSIT
    event_subtype := HistoryEventSubType.DEPOSIT_ASSET
    asset := lpToken
    balance := ⟨4023175857 / 10 ^ 18⟩
    location_label := some userAddr
    address := some gaugeAddr
    counterparty := some CPT_AERODROME
    product := some EvmProduct.GAUGE
    notes := some (Note.gaugeDeposit (4023175857 / 10 ^ 18)
      "vAMM-WETH/USDbC" gaugeAddr) }

/-- A GAUGE_DEPOSIT receipt log fixture (raw amount `4023175857`). -/
def gaugeLog : EvmTxReceiptLog :=
  { address := gaugeAddr
    topic0 := LogTopic.GAUGE_DEPOSIT
    topic1_address := userAddr
    data_int := 4023175857 }

/-- A SWAP receipt log fixture. -/
def swapLog : EvmTxReceiptLog :=
  { address := poolAddr
    topic0 := LogTopic.SWAP }

/-- Claim C7: protocol metadata tagging of an asset (performed when a
RECEIVE_WRAPPED add-liquidity event or a GAUGE_DEPOSIT event is decoded)
is write-once: a token already carrying a protocol tag keeps it (also
through the add-liquidity and gauge walks, which tag via
`set_token_protocol_if_missing`), and the tag is written only when
currently unset. -/
theorem C7_protocol_tag_write_once :
    (∀ (db : TokenDB) (evm_token : Asset) (protocol p : String),
      db evm_token.identifier = some p →
      set_token_protocol_if_missing db evm_token protocol
        evm_token.identifier = some p) ∧
    (∀ (db : TokenDB) (evm_token : Asset) (protocol : String),
      db evm_token.identifier = none →
      set_token_protocol_if_missing db evm_token protocol
        evm_token.identifier = some protocol) ∧
    (∀ (pools : List ChecksumEvmAddress) (tx_log : EvmTxReceiptLog)
      (l : List EvmEvent) (db : TokenDB) (id : Nat) (p : String),
      db id = some p →
      (decode_add_liquidity_events pools tx_log l db).db id = some p) ∧
    (∀ (topic0 : LogTopic) (user gauge : ChecksumEvmAddress) (raw : Nat)
      (l : List EvmEvent) (db : TokenDB) (found : Bool) (id : Nat)
      (p : String),
      db id = some p →
      (gaugeGo topic0 user gauge raw l db found).db id = some p) :=
  ⟨fun db t proto p h =>
      set_token_protocol_if_missing_preserves db t proto t.identifier p h,
    fun db t proto h => set_token_protocol_if_missing_sets db t proto h,
    fun pools tx_log l db id p h =>
      decode_add_liquidity_events_db_preserves pools tx_log l db id p h,
    fun topic0 u g raw l db found id p h =>
      gaugeGo_db_preserves topic0 u g raw l db found id p h⟩

/-- Claim C7 witness: a token tagged with another protocol keeps its tag,
and an untagged token receives the tag, at concrete inputs. -/
theorem C7_protocol_tag_write_once_witness :
    set_token_protocol_if_missing (fun _ => some "velodrome") lpToken
      AERODROME_POOL_PROTOCOL lpToken.identifier = some "velodrome" ∧
    set_token_protocol_if_missing emptyDB lpToken AERODROME_POOL_PROTOCOL
      lpToken.identifier = some AERODROME_POOL_PROTOCOL ∧
    (decode_add_liquidity_events [poolAddr] swapLog [swapSpendEvent]
      (fun _ => some "velodrome")).db lpToken.identifier
        = some "velodrome" ∧
    (gaugeGo LogTopic.GAUGE_DEPOSIT userAddr gaugeAddr 4023175857
      [gaugeStakeEvent] (fun _ => some "velodrome") false).db
        lpToken.identifier = some "velodrome" :=
  ⟨C7_protocol_tag_write_once.1 (fun _ => some "velodrome") lpToken
      AERODROME_POOL_PROTOCOL "velodrome" rfl,
    C7_protocol_tag_write_once.2.1 emptyDB lpToken AERODROME_POOL_PROTOCOL
      rfl,
    C7_protocol_tag_write_once.2.2.1 [poolAddr] swapLog [swapSpendEvent]
      (fun _ => some "velodrome") lpToken.identifier "velodrome" rfl,
    C7_protocol_tag_write_once.2.2.2 LogTopic.GAUGE_DEPOSIT userAddr
      gaugeAddr 4023175857 [gaugeStakeEvent] (fun _ => some "velodrome")
      false lpToken.identifier "velodrome" rfl⟩

/-- Claim C4: for a GAUGE_DEPOSIT, GAUGE_WITHDRAW or CLAIM_REWARDS log, an
event is reclassified if and only if its
(location_label, address, balance.amount) triple exactly equals the log's
(acting account, gauge address, normalized raw amount); every matching
event is reclassified identically (positionally, not only the first
match), and every non-matching event is left unmodified. -/
theorem C4_gauge_exact_match (context : DecoderContext) (db : TokenDB)
    (htopic : context.tx_log.topic0 = LogTopic.GAUGE_DEPOSIT ∨
      context.tx_log.topic0 = LogTopic.GAUGE_WITHDRAW ∨
      context.tx_log.topic0 = LogTopic.CLAIM_REWARDS)
    (hres : ∀ e ∈ context.decoded_events,
      e.asset.kind = AssetKind.evmToken) :
    (decode_gauge_events db context).events
        = context.decoded_events.map (gaugeStep context.tx_log.topic0
            context.tx_log.topic1_address context.tx_log.address
            context.tx_log.data_int) ∧
    (decode_gauge_events db context).err = none ∧
    (∀ (k : Nat) (e : EvmEvent), context.decoded_events[k]? = some e →
      (¬ gaugeTripleMatch context.tx_log.topic1_address
          context.tx_log.address context.tx_log.data_int e.asset e →
        (decode_gauge_events db context).events[k]? = some e) ∧
      (gaugeTripleMatch context.tx_log.topic1_address
          context.tx_log.address context.tx_log.data_int e.asset e →
        (decode_gauge_events db context).events[k]?
          = some (gaugeReclassFor context.tx_log.topic0 e
              context.tx_log.address))) := by
  have hw := gaugeGo_ok context.tx_log.topic0 context.tx_log.topic1_address
    context.tx_log.address context.tx_log.data_int context.decoded_events
    db false hres
  have hout : decode_gauge_events db context
      = ⟨(gaugeGo context.tx_log.topic0 context.tx_log.topic1_address
            context.tx_log.address context.tx_log.data_int
            context.decoded_events db false).events,
          (gaugeGo context.tx_log.topic0 context.tx_log.topic1_address
            context.tx_log.address context.tx_log.data_int
            context.decoded_events db false).db,
          ⟨(gaugeGo context.tx_log.topic0 context.tx_log.topic1_address
            context.tx_log.address context.tx_log.data_int
            context.decoded_events db false).refresh⟩,
          (gaugeGo context.tx_log.topic0 context.tx_log.topic1_address
            context.tx_log.address context.tx_log.data_int
            context.decoded_events db false).err⟩ := by
    unfold decode_gauge_events
    rw [if_pos htopic]
  refine ⟨?_, ?_, ?_⟩
  · rw [hout]
    exact hw.1
  · rw [hout]
    exact hw.2.1
  · intro k e hk
    have hke : e.asset.kind = AssetKind.evmToken :=
      hres e (mem_of_getElem?_some hk)
    have hmap : (decode_gauge_events db context).events[k]?
        = some (gaugeStep context.tx_log.topic0 context.tx_log.topic1_address
            context.tx_log.address context.tx_log.data_int e) := by
      rw [hout]
      rw [hw.1, List.getElem?_map, hk]
      rfl
    constructor
    · intro hnm
      rw [hmap, gaugeStep_of_no_match _ _ _ _ _ hke hnm]
    · intro hm
      rw [hmap, gaugeStep_of_match _ _ _ _ _ hke hm]

/-- Claim C4 witness: the gauge-deposit scenario event (raw amount
4023175857, 18 decimals) is reclassified, while a gas event with a
different triple is untouched, at concrete inputs. -/
theorem C4_gauge_exact_match_witness :
    (decode_gauge_events emptyDB
        ⟨gaugeLog, [gasEvent, gaugeStakeEvent], "0xstake"⟩).events[1]?
      = some (gaugeReclassFor LogTopic.GAUGE_DEPOSIT gaugeStakeEvent
          gaugeAddr) ∧
    (decode_gauge_events emptyDB
        ⟨gaugeLog, [gasEvent, gaugeStakeEvent], "0xstake"⟩).events[0]?
      = some gasEvent :=
  ⟨((C4_gauge_exact_match ⟨gaugeLog, [gasEvent, gaugeStakeEvent], "0xstake"⟩
      emptyDB (Or.inl rfl) (by decide)).2.2 1 gaugeStakeEvent rfl).2
      ⟨rfl, rfl, by
        simp only [gaugeStakeEvent, gaugeLog, lpToken, asset_normalized_value]
        norm_num⟩,
    ((C4_gauge_exact_match ⟨gaugeLog, [gasEvent, gaugeStakeEvent], "0xstake"⟩
      emptyDB (Or.inl rfl) (by decide)).2.2 0 gasEvent rfl).1
      (fun h => Option.noConfusion h.2.1)⟩

/-- Claim C5: for an ADD_LIQUIDITY topic every SPEND/NONE event addressed
to a known pool becomes DEPOSIT/DEPOSIT_ASSET with counterparty and
product=POOL, and every RECEIVE/NONE event from the zero address gets
subtype RECEIVE_WRAPPED; for a REMOVE_LIQUIDITY topic every SPEND/NONE
event addressed to a pool gets subtype RETURN_WRAPPED and every
RECEIVE/NONE event addressed to a pool becomes WITHDRAWAL/REMOVE_ASSET;
non-matching events are untouched and no event is created, deleted or
reordered (the walks are positional maps of the input list). -/
theorem C5_liquidity_reclassification (pools : List ChecksumEvmAddress)
    (tx_log : EvmTxReceiptLog) (l : List EvmEvent) (db : TokenDB)
    (hres : ∀ e ∈ l, e.asset.kind = AssetKind.evmToken) :
    (decode_add_liquidity_events pools tx_log l db).events
        = l.map (addLiqStep pools tx_log) ∧
    (decode_add_liquidity_events pools tx_log l db).events.length
        = l.length ∧
    (decode_add_liquidity_events pools tx_log l db).err = none ∧
    (decode_remove_liquidity_events pools tx_log l).events
        = l.map (remLiqStep pools tx_log) ∧
    (decode_remove_liquidity_events pools tx_log l).events.length
        = l.length ∧
    (decode_remove_liquidity_events pools tx_log l).err = none ∧
    (∀ e : EvmEvent, e.asset.kind = AssetKind.evmToken →
      (isAddLiqSpendCand pools e →
        addLiqStep pools tx_log e = addLiqSpendReclass e e.asset) ∧
      (isAddLiqReceiveCand e →
        addLiqStep pools tx_log e
          = addLiqReceiveReclass e e.asset tx_log.address) ∧
      (¬ isAddLiqSpendCand pools e → ¬ isAddLiqReceiveCand e →
        addLiqStep pools tx_log e = e) ∧
      (isRemLiqSpendCand pools e →
        remLiqStep pools tx_log e = remLiqSpendReclass e e.asset) ∧
      (isRemLiqReceiveCand pools e →
        remLiqStep pools tx_log e
          = remLiqReceiveReclass e e.asset tx_log.address) ∧
      (¬ isRemLiqSpendCand pools e → ¬ isRemLiqReceiveCand pools e →
        remLiqStep pools tx_log e = e)) := by
  have ha := decode_add_liquidity_events_ok pools tx_log l db hres
  have hr := decode_remove_liquidity_events_ok pools tx_log l hres
  refine ⟨ha.1, by rw [ha.1, List.length_map], ha.2, hr.1,
    by rw [hr.1, List.length_map], hr.2, ?_⟩
  intro e hk
  refine ⟨?_, ?_, ?_, ?_, ?_, ?_⟩
  · intro h1
    simp only [addLiqStep, resolve_crypto_of_evmToken e.asset hk, if_pos h1]
  · intro h2
    have h1 : ¬ isAddLiqSpendCand pools e :=
      fun hc => absurd (hc.1.symm.trans h2.1) (by decide)
    simp only [addLiqStep, resolve_crypto_of_evmToken e.asset hk, if_neg h1,
      if_pos h2]
  · intro h1 h2
    simp only [addLiqStep, resolve_crypto_of_evmToken e.asset hk, if_neg h1,
      if_neg h2]
  · intro h1
    simp only [remLiqStep, resolve_crypto_of_evmToken e.asset hk, if_pos h1]
  · intro h2
    have h1 : ¬ isRemLiqSpendCand pools e :=
      fun hc => absurd (hc.1.symm.trans h2.1) (by decide)
    simp only [remLiqStep, resolve_crypto_of_evmToken e.asset hk, if_neg h1,
      if_pos h2]
  · intro h1 h2
    simp only [remLiqStep, resolve_crypto_of_evmToken e.asset hk, if_neg h1,
      if_neg h2]

/-- An ADD_LIQUIDITY receipt log fixture. -/
def addLiqLog : EvmTxReceiptLog :=
  { address := poolAddr
    topic0 := LogTopic.ADD_LIQUIDITY }

/-- An upstream SPEND/NONE deposit leg addressed to a pool. -/
def depositSpendEvent : EvmEvent :=
  { event_type := HistoryEventType.SPEND
    event_subtype := HistoryEventSubType.NONE
    asset := usdbcToken
    balance := ⟨16186 / 100000⟩
    location_label := some userAddr
    address := some poolAddr }

/-- An upstream RECEIVE/NONE LP-token mint from the zero address. -/
def lpReceiveEvent : EvmEvent :=
  { event_type := HistoryEventType.RECEIVE
    event_subtype := HistoryEventSubType.NONE
    asset := lpToken
    balance := ⟨2⟩
    location_label := some userAddr
    address := some ZERO_ADDRESS }

/-- Claim C5 witness: on a concrete transaction the add-liquidity walk maps
the list positionally, the pool deposit leg is reclassified, the zero
address mint gets RECEIVE_WRAPPED, the remove-liquidity walk reclassifies
its two legs symmetrically, and a gas event is untouched by both. -/
theorem C5_liquidity_reclassification_witness :
    (decode_add_liquidity_events [poolAddr] addLiqLog
        [depositSpendEvent, lpReceiveEvent, swapReceiveEvent, gasEvent]
        emptyDB).events
      = [depositSpendEvent, lpReceiveEvent, swapReceiveEvent,
          gasEvent].map (addLiqStep [poolAddr] addLiqLog) ∧
    addLiqStep [poolAddr] addLiqLog depositSpendEvent
      = addLiqSpendReclass depositSpendEvent depositSpendEvent.asset ∧
    addLiqStep [poolAddr] addLiqLog lpReceiveEvent
      = addLiqReceiveReclass lpReceiveEvent lpReceiveEvent.asset
          addLiqLog.address ∧
    remLiqStep [poolAddr] addLiqLog depositSpendEvent
      = remLiqSpendReclass depositSpendEvent depositSpendEvent.asset ∧
    remLiqStep [poolAddr] addLiqLog swapReceiveEvent
      = remLiqReceiveReclass swapReceiveEvent swapReceiveEvent.asset
          addLiqLog.address ∧
    addLiqStep [poolAddr] addLiqLog gasEvent = gasEvent ∧
    remLiqStep [poolAddr] addLiqLog gasEvent = gasEvent := by
  have h := C5_liquidity_reclassification [poolAddr] addLiqLog
    [depositSpendEvent, lpReceiveEvent, swapReceiveEvent, gasEvent] emptyDB
    (by decide)
  have hd := h.2.2.2.2.2.2 depositSpendEvent rfl
  have hl := h.2.2.2.2.2.2 lpReceiveEvent rfl
  have hr := h.2.2.2.2.2.2 swapReceiveEvent rfl
  have hg := h.2.2.2.2.2.2 gasEvent rfl
  exact ⟨h.1, hd.1 (by decide), hl.2.1 (by decide), hd.2.2.2.1 (by decide),
    hr.2.2.2.2.1 (by decide), (hg.2.2.1 (by decide) (by decide)),
    (hg.2.2.2.2.2 (by decide) (by decide))⟩

/-- Claim C9: in every handler event-walk, an event whose asset reference
is unresolvable raises a hard error that propagates to the caller
(`err = some`), aborting reclassification of the remaining events (the
failing event and everything after it are returned unmodified); the event
is not silently skipped. -/
theorem C9_unresolvable_asset_aborts :
    (∀ (pools : List ChecksumEvmAddress) (tx_log : EvmTxReceiptLog)
      (pre : List EvmEvent),
      (∀ e ∈ pre, e.asset.kind = AssetKind.evmToken) →
      ∀ (bad : EvmEvent) (err : DecoderError),
        bad.asset.resolve_to_crypto_asset = .error err →
        ∀ (post : List EvmEvent) (db : TokenDB),
          (decode_add_liquidity_events pools tx_log (pre ++ bad :: post)
            db).err = some err ∧
          (decode_add_liquidity_events pools tx_log (pre ++ bad :: post)
            db).events = pre.map (addLiqStep pools tx_log)
              ++ bad :: post) ∧
    (∀ (pools : List ChecksumEvmAddress) (tx_log : EvmTxReceiptLog)
      (pre : List EvmEvent),
      (∀ e ∈ pre, e.asset.kind = AssetKind.evmToken) →
      ∀ (bad : EvmEvent) (err : DecoderError),
        bad.asset.resolve_to_crypto_asset = .error err →
        ∀ (post : List EvmEvent),
          (decode_remove_liquidity_events pools tx_log
            (pre ++ bad :: post)).err = some err ∧
          (decode_remove_liquidity_events pools tx_log
            (pre ++ bad :: post)).events
              = pre.map (remLiqStep pools tx_log) ++ bad :: post) ∧
    (∀ (pa : List ChecksumEvmAddress) (tx_hash : String)
      (pre : List EvmEvent),
      (∀ e ∈ pre, e.asset.kind = AssetKind.evmToken) →
      ∀ (bad : EvmEvent) (err : DecoderError),
        bad.asset.resolve_to_crypto_asset = .error err →
        ∀ (post : List EvmEvent),
          (decode_swap pa tx_hash (pre ++ bad :: post)).err = some err ∧
          (decode_swap pa tx_hash (pre ++ bad :: post)).events
              = pre.map (swapStep pa) ++ bad :: post ∧
          (decode_swap pa tx_hash (pre ++ bad :: post)).diags = []) ∧
    (∀ (tx_log : EvmTxReceiptLog) (tx_hash : String) (db : TokenDB),
      (tx_log.topic0 = LogTopic.GAUGE_DEPOSIT ∨
        tx_log.topic0 = LogTopic.GAUGE_WITHDRAW ∨
        tx_log.topic0 = LogTopic.CLAIM_REWARDS) →
      ∀ (pre : List EvmEvent),
        (∀ e ∈ pre, e.asset.kind = AssetKind.evmToken) →
        ∀ (bad : EvmEvent) (err : DecoderError),
          bad.asset.resolve_to_crypto_asset = .error err →
          ∀ (post : List EvmEvent),
            (decode_gauge_events db
              ⟨tx_log, pre ++ bad :: post, tx_hash⟩).err = some err ∧
            (decode_gauge_events db
              ⟨tx_log, pre ++ bad :: post, tx_hash⟩).events
                = pre.map (gaugeStep tx_log.topic0 tx_log.topic1_address
                    tx_log.address tx_log.data_int) ++ bad :: post) := by
  refine ⟨?_, ?_, ?_, ?_⟩
  · intro pools tx_log pre hpre bad err hbad post db
    have h := decode_add_liquidity_events_err pools tx_log pre hpre bad err
      hbad post db
    exact ⟨h.2, h.1⟩
  · intro pools tx_log pre hpre bad err hbad post
    have h := decode_remove_liquidity_events_err pools tx_log pre hpre bad
      err hbad post
    exact ⟨h.2, h.1⟩
  · intro pa tx_hash pre hpre bad err hbad post
    have h := swapScanGo_err pa pre hpre bad err hbad post 0 none none
    have hds : decode_swap pa tx_hash (pre ++ bad :: post)
        = ⟨(swapScanGo pa (pre ++ bad :: post) 0 none none).events,
            DEFAULT_DECODING_OUTPUT, [], some err⟩ := by
      unfold decode_swap
      rcases hscan : swapScanGo pa (pre ++ bad :: post) 0 none none with
        ⟨evs, s, r, e⟩
      rw [hscan] at h
      simp only at h
      rw [h.2]
    rw [hds, h.1]
    exact ⟨rfl, rfl, rfl⟩
  · intro tx_log tx_hash db htopic pre hpre bad err hbad post
    have h := gaugeGo_err tx_log.topic0 tx_log.topic1_address tx_log.address
      tx_log.data_int pre hpre bad err hbad post db false
    have hout : decode_gauge_events db ⟨tx_log, pre ++ bad :: post, tx_hash⟩
        = ⟨(gaugeGo tx_log.topic0 tx_log.topic1_address tx_log.address
              tx_log.data_int (pre ++ bad :: post) db false).events,
            (gaugeGo tx_log.topic0 tx_log.topic1_address tx_log.address
              tx_log.data_int (pre ++ bad :: post) db false).db,
            ⟨(gaugeGo tx_log.topic0 tx_log.topic1_address tx_log.address
              tx_log.data_int (pre ++ bad :: post) db false).refresh⟩,
            (gaugeGo tx_log.topic0 tx_log.topic1_address tx_log.address
              tx_log.data_int (pre ++ bad :: post) db false).err⟩ := by
      unfold decode_gauge_events
      rw [if_pos htopic]
    rw [hout]
    exact ⟨h.2, h.1⟩

/-- Claim C9 witness: an unresolvable asset placed between two resolvable
events makes the add-liquidity walk and the swap scan raise `UnknownAsset`,
with the failing event and its successor unmodified. -/
theorem C9_unresolvable_asset_aborts_witness :
    (decode_add_liquidity_events [poolAddr] addLiqLog
        [depositSpendEvent, badEvent, lpReceiveEvent] emptyDB).err
      = some (DecoderError.UnknownAsset 1004) ∧
    (decode_add_liquidity_events [poolAddr] addLiqLog
        [depositSpendEvent, badEvent, lpReceiveEvent] emptyDB).events
      = [depositSpendEvent].map (addLiqStep [poolAddr] addLiqLog)
          ++ [badEvent, lpReceiveEvent] ∧
    (decode_swap (protocol_addresses [poolAddr]) "0xbad"
        [swapSpendEvent, badEvent, swapReceiveEvent]).err
      = some (DecoderError.UnknownAsset 1004) ∧
    (decode_swap (protocol_addresses [poolAddr]) "0xbad"
        [swapSpendEvent, badEvent, swapReceiveEvent]).events
      = [swapSpendEvent].map (swapStep (protocol_addresses [poolAddr]))
          ++ [badEvent, swapReceiveEvent] := by
  have ha := C9_unresolvable_asset_aborts.1 [poolAddr] addLiqLog
    [depositSpendEvent] (by decide) badEvent (DecoderError.UnknownAsset 1004)
    rfl [lpReceiveEvent] emptyDB
  have hs := C9_unresolvable_asset_aborts.2.2.1 (protocol_addresses [poolAddr])
    "0xbad" [swapSpendEvent] (by decide) badEvent
    (DecoderError.UnknownAsset 1004) rfl [swapReceiveEvent]
  exact ⟨ha.1, ha.2, hs.1, hs.2.1⟩

/-- Claim C10: every handler walk resolves the asset before checking the
event's shape, so an unresolvable asset on an event that matches no
reclassification condition still raises the hard error; and when the error
is raised mid-walk, the events already walked keep their (possibly
reclassified) new state — the sequence is not rolled back. -/
theorem C10_resolution_before_shape_no_rollback :
    (∀ (pools : List ChecksumEvmAddress) (tx_log : EvmTxReceiptLog)
      (pre : List EvmEvent),
      (∀ e ∈ pre, e.asset.kind = AssetKind.evmToken) →
      ∀ (bad : EvmEvent) (err : DecoderError),
        bad.asset.resolve_to_crypto_asset = .error err →
        ¬ isAddLiqSpendCand pools bad → ¬ isAddLiqReceiveCand bad →
        ∀ (post : List EvmEvent) (db : TokenDB),
          (decode_add_liquidity_events pools tx_log (pre ++ bad :: post)
            db).err = some err ∧
          (∀ (k : Nat) (x : EvmEvent), pre[k]? = some x →
            (decode_add_liquidity_events pools tx_log (pre ++ bad :: post)
              db).events[k]? = some (addLiqStep pools tx_log x))) ∧
    (∀ (pools : List ChecksumEvmAddress) (tx_log : EvmTxReceiptLog)
      (pre : List EvmEvent),
      (∀ e ∈ pre, e.asset.kind = AssetKind.evmToken) →
      ∀ (bad : EvmEvent) (err : DecoderError),
        bad.asset.resolve_to_crypto_asset = .error err →
        ¬ isRemLiqSpendCand pools bad → ¬ isRemLiqReceiveCand pools bad →
        ∀ (post : List EvmEvent),
          (decode_remove_liquidity_events pools tx_log
            (pre ++ bad :: post)).err = some err ∧
          (∀ (k : Nat) (x : EvmEvent), pre[k]? = some x →
            (decode_remove_liquidity_events pools tx_log
              (pre ++ bad :: post)).events[k]?
                = some (remLiqStep pools tx_log x))) ∧
    (∀ (pa : List ChecksumEvmAddress) (tx_hash : String)
      (pre : List EvmEvent),
      (∀ e ∈ pre, e.asset.kind = AssetKind.evmToken) →
      ∀ (bad : EvmEvent) (err : DecoderError),
        bad.asset.resolve_to_crypto_asset = .error err →
        ¬ isSwapSpendCand pa bad → ¬ isSwapReceiveCand pa bad →
        ∀ (post : List EvmEvent),
          (decode_swap pa tx_hash (pre ++ bad :: post)).err = some err ∧
          (∀ (k : Nat) (x : EvmEvent), pre[k]? = some x →
            (decode_swap pa tx_hash (pre ++ bad :: post)).events[k]?
              = some (swapStep pa x))) ∧
    (∀ (tx_log : EvmTxReceiptLog) (tx_hash : String) (db : TokenDB),
      (tx_log.topic0 = LogTopic.GAUGE_DEPOSIT ∨
        tx_log.topic0 = LogTopic.GAUGE_WITHDRAW ∨
        tx_log.topic0 = LogTopic.CLAIM_REWARDS) →
      ∀ (pre : List EvmEvent),
        (∀ e ∈ pre, e.asset.kind = AssetKind.evmToken) →
        ∀ (bad : EvmEvent) (err : DecoderError),
          bad.asset.resolve_to_crypto_asset = .error err →
          ¬ gaugeTripleMatch tx_log.topic1_address tx_log.address
            tx_log.data_int bad.asset bad →
          ∀ (post : List EvmEvent),
            (decode_gauge_events db
              ⟨tx_log, pre ++ bad :: post, tx_hash⟩).err = some err ∧
            (∀ (k : Nat) (x : EvmEvent), pre[k]? = some x →
              (decode_gauge_events db
                ⟨tx_log, pre ++ bad :: post, tx_hash⟩).events[k]?
                  = some (gaugeStep tx_log.topic0 tx_log.topic1_address
                      tx_log.address tx_log.data_int x))) := by
  have hpos : ∀ (f : EvmEvent → EvmEvent) (pre : List EvmEvent)
      (rest : List EvmEvent) (k : Nat) (x : EvmEvent), pre[k]? = some x →
      (pre.map f ++ rest)[k]? = some (f x) := by
    intro f pre rest k x hk
    have hlt : k < (pre.map f).length := by
      rw [List.length_map]
      exact lt_of_getElem?_some hk
    rw [List.getElem?_append_left hlt, List.getElem?_map, hk]
    rfl
  refine ⟨?_, ?_, ?_, ?_⟩
  · intro pools tx_log pre hpre bad err hbad _ _ post db
    have h := decode_add_liquidity_events_err pools tx_log pre hpre bad err
      hbad post db
    exact ⟨h.2, fun k x hk => h.1 ▸ hpos _ pre _ k x hk⟩
  · intro pools tx_log pre hpre bad err hbad _ _ post
    have h := decode_remove_liquidity_events_err pools tx_log pre hpre bad
      err hbad post
    exact ⟨h.2, fun k x hk => h.1 ▸ hpos _ pre _ k x hk⟩
  · intro pa tx_hash pre hpre bad err hbad _ _ post
    have h := swapScanGo_err pa pre hpre bad err hbad post 0 none none
    have hds : decode_swap pa tx_hash (pre ++ bad :: post)
        = ⟨(swapScanGo pa (pre ++ bad :: post) 0 none none).events,
            DEFAULT_DECODING_OUTPUT, [], some err⟩ := by
      unfold decode_swap
      rcases hscan : swapScanGo pa (pre ++ bad :: post) 0 none none with
        ⟨evs, s, r, e⟩
      rw [hscan] at h
      simp only at h
      rw [h.2]
    rw [hds]
    exact ⟨rfl, fun k x hk => h.1 ▸ hpos _ pre _ k x hk⟩
  · intro tx_log tx_hash db htopic pre hpre bad err hbad _ post
    have h := gaugeGo_err tx_log.topic0 tx_log.topic1_address tx_log.address
      tx_log.data_int pre hpre bad err hbad post db false
    have hout : decode_gauge_events db ⟨tx_log, pre ++ bad :: post, tx_hash⟩
        = ⟨(gaugeGo tx_log.topic0 tx_log.topic1_address tx_log.address
              tx_log.data_int (pre ++ bad :: post) db false).events,
            (gaugeGo tx_log.topic0 tx_log.topic1_address tx_log.address
              tx_log.data_int (pre ++ bad :: post) db false).db,
            ⟨(gaugeGo tx_log.topic0 tx_log.topic1_address tx_log.address
              tx_log.data_int (pre ++ bad :: post) db false).refresh⟩,
            (gaugeGo tx_log.topic0 tx_log.topic1_address tx_log.address
              tx_log.data_int (pre ++ bad :: post) db false).err⟩ := by
      unfold decode_gauge_events
      rw [if_pos htopic]
    rw [hout]
    exact ⟨h.2, fun k x hk => h.1 ▸ hpos _ pre _ k x hk⟩

/-- Claim C10 witness: a mid-list event with an unresolvable asset matching
no swap shape still aborts the swap scan with `UnknownAsset`, while the
spend leg walked before it keeps its TRADE/SPEND reclassification. -/
theorem C10_resolution_before_shape_no_rollback_witness :
    (decode_swap (protocol_addresses [poolAddr]) "0xbad"
        [swapSpendEvent, badEvent, swapReceiveEvent]).err
      = some (DecoderError.UnknownAsset 1004) ∧
    (decode_swap (protocol_addresses [poolAddr]) "0xbad"
        [swapSpendEvent, badEvent, swapReceiveEvent]).events[0]?
      = some (swapStep (protocol_addresses [poolAddr]) swapSpendEvent) := by
  have h := C10_resolution_before_shape_no_rollback.2.2.1
    (protocol_addresses [poolAddr]) "0xbad" [swapSpendEvent] (by decide)
    badEvent (DecoderError.UnknownAsset 1004) rfl (by decide) (by decide)
    [swapReceiveEvent]
  exact ⟨h.1, h.2 0 swapSpendEvent rfl⟩

lemma decode_pool_events_swap (pools : List ChecksumEvmAddress)
    (db : TokenDB) (context : DecoderContext)
    (htopic : context.tx_log.topic0 = LogTopic.SWAP) :
    decode_pool_events pools db context
      = ⟨(decode_swap (protocol_addresses pools) context.tx_hash
            context.decoded_events).events, db,
          (decode_swap (protocol_addresses pools) context.tx_hash
            context.decoded_events).output,
          (decode_swap (protocol_addresses pools) context.tx_hash
            context.decoded_events).diags,
          (decode_swap (protocol_addresses pools) context.tx_hash
            context.decoded_events).err⟩ := by
  unfold decode_pool_events
  rw [htopic]

/-- Claim C8: re-running the SWAP dispatch on a sequence with no remaining
SPEND/NONE or RECEIVE/NONE candidate at a protocol address finds zero
candidates (both leg variables stay unset) and performs no further
mutation of any event. -/
theorem C8_swap_idempotent_on_classified (pools : List ChecksumEvmAddress)
    (db : TokenDB) (context : DecoderContext)
    (htopic : context.tx_log.topic0 = LogTopic.SWAP)
    (hres : ∀ e ∈ context.decoded_events,
      e.asset.kind = AssetKind.evmToken)
    (hnos : ∀ e ∈ context.decoded_events,
      ¬ isSwapSpendCand (protocol_addresses pools) e)
    (hnor : ∀ e ∈ context.decoded_events,
      ¬ isSwapReceiveCand (protocol_addresses pools) e) :
    (decode_pool_events pools db context).events
        = context.decoded_events ∧
    (swapScanGo (protocol_addresses pools) context.decoded_events 0 none
      none).spend_idx = none ∧
    (swapScanGo (protocol_addresses pools) context.decoded_events 0 none
      none).receive_idx = none ∧
    (decode_pool_events pools db context).err = none := by
  have hscan := swapScanGo_ok (protocol_addresses pools)
    context.decoded_events 0 none none hres
  have hmap : context.decoded_events.map
      (swapStep (protocol_addresses pools)) = context.decoded_events := by
    rw [List.map_congr_left fun e he =>
      swapStep_of_not_cand (protocol_addresses pools) e (hres e he)
        (hnos e he) (hnor e he), List.map_id']
  have hS : lastIdxAux (isSwapSpendCand (protocol_addresses pools))
      context.decoded_events 0 none = none :=
    lastIdxAux_of_none _ _ _ _ hnos
  have hR : lastIdxAux (isSwapReceiveCand (protocol_addresses pools))
      context.decoded_events 0 none = none :=
    lastIdxAux_of_none _ _ _ _ hnor
  have hds : decode_swap (protocol_addresses pools) context.tx_hash
      context.decoded_events
        = ⟨context.decoded_events, DEFAULT_DECODING_OUTPUT,
            [⟨context.tx_hash, false, false⟩], none⟩ := by
    unfold decode_swap
    rw [hscan, hS, hR, hmap]
    rfl
  rw [decode_pool_events_swap pools db context htopic, hds]
  exact ⟨rfl, by rw [hscan, hS], by rw [hscan, hR], rfl⟩

/-- Claim C8 witness: dispatching SWAP over an already classified pair
(TRADE/SPEND and TRADE/RECEIVE) leaves the sequence untouched and finds no
candidates. -/
theorem C8_swap_idempotent_on_classified_witness :
    (decode_pool_events [poolAddr] emptyDB
        ⟨swapLog, [swapSpendReclass swapSpendEvent swapSpendEvent.asset,
          swapReceiveReclass swapReceiveEvent swapReceiveEvent.asset],
          "0xagain"⟩).events
      = [swapSpendReclass swapSpendEvent swapSpendEvent.asset,
          swapReceiveReclass swapReceiveEvent swapReceiveEvent.asset] ∧
    (swapScanGo (protocol_addresses [poolAddr])
        [swapSpendReclass swapSpendEvent swapSpendEvent.asset,
          swapReceiveReclass swapReceiveEvent swapReceiveEvent.asset]
        0 none none).spend_idx = none ∧
    (swapScanGo (protocol_addresses [poolAddr])
        [swapSpendReclass swapSpendEvent swapSpendEvent.asset,
          swapReceiveReclass swapReceiveEvent swapReceiveEvent.asset]
        0 none none).receive_idx = none := by
  have h := C8_swap_idempotent_on_classified [poolAddr] emptyDB
    ⟨swapLog, [swapSpendReclass swapSpendEvent swapSpendEvent.asset,
      swapReceiveReclass swapReceiveEvent swapReceiveEvent.asset],
      "0xagain"⟩ rfl (by decide) (by decide) (by decide)
  exact ⟨h.1, h.2.1, h.2.2.1⟩

lemma decode_gauge_events_run (db : TokenDB) (context : DecoderContext)
    (htopic : context.tx_log.topic0 = LogTopic.GAUGE_DEPOSIT ∨
      context.tx_log.topic0 = LogTopic.GAUGE_WITHDRAW ∨
      context.tx_log.topic0 = LogTopic.CLAIM_REWARDS) :
    decode_gauge_events db context
      = ⟨(gaugeGo context.tx_log.topic0 context.tx_log.topic1_address
            context.tx_log.address context.tx_log.data_int
            context.decoded_events db false).events,
          (gaugeGo context.tx_log.topic0 context.tx_log.topic1_address
            context.tx_log.address context.tx_log.data_int
            context.decoded_events db false).db,
          ⟨(gaugeGo context.tx_log.topic0 context.tx_log.topic1_address
            context.tx_log.address context.tx_log.data_int
            context.decoded_events db false).refresh⟩,
          (gaugeGo context.tx_log.topic0 context.tx_log.topic1_address
            context.tx_log.address context.tx_log.data_int
            context.decoded_events db false).err⟩ := by
  unfold decode_gauge_events
  rw [if_pos htopic]

/-- Claim C6 counterexample: an event that is already in fully reclassified
form still matches the correlation triple, so the dispatch modifies no
event (the output sequence equals the input) yet returns a true refresh
flag — refuting the claimed "true if and only if at least one event was
modified". -/
theorem C6_counterexample :
    (decode_gauge_events emptyDB
        ⟨gaugeLog, [gaugeStakedEvent], "0xrepeat"⟩).events
      = [gaugeStakedEvent] ∧
    (decode_gauge_events emptyDB
        ⟨gaugeLog, [gaugeStakedEvent], "0xrepeat"⟩).output.refresh_balances
      = true := by
  have hm : gaugeTripleMatch userAddr gaugeAddr 4023175857
      gaugeStakedEvent.asset gaugeStakedEvent :=
    ⟨rfl, rfl, by
      simp only [gaugeStakedEvent, lpToken, asset_normalized_value]
      norm_num⟩
  have hfix : gaugeDepositReclass gaugeStakedEvent gaugeStakedEvent.asset
      gaugeAddr = gaugeStakedEvent := rfl
  have hwalk : gaugeGo LogTopic.GAUGE_DEPOSIT userAddr gaugeAddr 4023175857
      [gaugeStakedEvent] emptyDB false
        = ⟨[gaugeStakedEvent],
            set_token_protocol_if_missing emptyDB gaugeStakedEvent.asset
              AERODROME_POOL_PROTOCOL, true, none⟩ := by
    simp only [gaugeGo,
      resolve_crypto_of_evmToken gaugeStakedEvent.asset rfl,
      resolve_evm_of_evmToken gaugeStakedEvent.asset rfl, if_pos hm,
      if_pos rfl, hfix]
    rfl
  rw [decode_gauge_events_run emptyDB
    ⟨gaugeLog, [gaugeStakedEvent], "0xrepeat"⟩ (Or.inl rfl)]
  rw [show (⟨gaugeLog, [gaugeStakedEvent], "0xrepeat"⟩ :
      DecoderContext).decoded_events = [gaugeStakedEvent] from rfl]
  rw [show (⟨gaugeLog, [gaugeStakedEvent], "0xrepeat"⟩ :
      DecoderContext).tx_log.topic0 = LogTopic.GAUGE_DEPOSIT from rfl]
  rw [show (⟨gaugeLog, [gaugeStakedEvent], "0xrepeat"⟩ :
      DecoderContext).tx_log.topic1_address = userAddr from rfl]
  rw [show (⟨gaugeLog, [gaugeStakedEvent], "0xrepeat"⟩ :
      DecoderContext).tx_log.address = gaugeAddr from rfl]
  rw [show (⟨gaugeLog, [gaugeStakedEvent], "0xrepeat"⟩ :
      DecoderContext).tx_log.data_int = 4023175857 from rfl]
  rw [hwalk]
  exact ⟨rfl, rfl⟩

/-- Claim C6 (amended): the gauge handler returns a refresh flag that is
true if and only if at least one event matched the correlation triple
(each matching event is rewritten, possibly to its existing value, so a
matching already-classified event yields a true flag without any actual
change); when no event matches, the dispatch is silently a no-op and the
flag is false. -/
theorem C6_gauge_refresh_flag (context : DecoderContext) (db : TokenDB)
    (htopic : context.tx_log.topic0 = LogTopic.GAUGE_DEPOSIT ∨
      context.tx_log.topic0 = LogTopic.GAUGE_WITHDRAW ∨
      context.tx_log.topic0 = LogTopic.CLAIM_REWARDS)
    (hres : ∀ e ∈ context.decoded_events,
      e.asset.kind = AssetKind.evmToken) :
    ((decode_gauge_events db context).output.refresh_balances = true ↔
      ∃ e ∈ context.decoded_events,
        gaugeTripleMatch context.tx_log.topic1_address
          context.tx_log.address context.tx_log.data_int e.asset e) ∧
    ((∀ e ∈ context.decoded_events,
        ¬ gaugeTripleMatch context.tx_log.topic1_address
          context.tx_log.address context.tx_log.data_int e.asset e) →
      (decode_gauge_events db context).events = context.decoded_events ∧
      (decode_gauge_events db context).output.refresh_balances = false) ∧
    (decode_gauge_events db context).err = none := by
  have hw := gaugeGo_ok context.tx_log.topic0 context.tx_log.topic1_address
    context.tx_log.address context.tx_log.data_int context.decoded_events
    db false hres
  have hout : decode_gauge_events db context
      = ⟨(gaugeGo context.tx_log.topic0 context.tx_log.topic1_address
            context.tx_log.address context.tx_log.data_int
            context.decoded_events db false).events,
          (gaugeGo context.tx_log.topic0 context.tx_log.topic1_address
            context.tx_log.address context.tx_log.data_int
            context.decoded_events db false).db,
          ⟨(gaugeGo context.tx_log.topic0 context.tx_log.topic1_address
            context.tx_log.address context.tx_log.data_int
            context.decoded_events db false).refresh⟩,
          (gaugeGo context.tx_log.topic0 context.tx_log.topic1_address
            context.tx_log.address context.tx_log.data_int
            context.decoded_events db false).err⟩ := by
    unfold decode_gauge_events
    rw [if_pos htopic]
  refine ⟨?_, ?_, ?_⟩
  · rw [hout]
    simp only [hw.2.2, Bool.false_or, List.any_eq_true, decide_eq_true_eq]
  · intro hno
    constructor
    · rw [hout, hw.1]
      rw [List.map_congr_left fun e he =>
        gaugeStep_of_no_match context.tx_log.topic0
          context.tx_log.topic1_address context.tx_log.address
          context.tx_log.data_int e (hres e he) (hno e he), List.map_id']
    · rw [hout]
      simp only [hw.2.2, Bool.false_or, List.any_eq_false]
      intro x hx h
      exact hno x hx (of_decide_eq_true h)
  · rw [hout]
    exact hw.2.1

/-- Claim C6 (amended) witness: the scenario dispatch (GAUGE_DEPOSIT log,
raw amount 4023175857, 18-decimal asset, event amount
0.000000004023175857) yields a true refresh flag, and a dispatch over a
single non-matching event is a no-op with a false flag. -/
theorem C6_gauge_refresh_flag_witness :
    (decode_gauge_events emptyDB
        ⟨gaugeLog, [gasEvent, gaugeStakeEvent],
          "0xstake"⟩).output.refresh_balances = true ∧
    (decode_gauge_events emptyDB
        ⟨gaugeLog, [gasEvent], "0xnone"⟩).events = [gasEvent] ∧
    (decode_gauge_events emptyDB
        ⟨gaugeLog, [gasEvent], "0xnone"⟩).output.refresh_balances
      = false := by
  have h1 := C6_gauge_refresh_flag
    ⟨gaugeLog, [gasEvent, gaugeStakeEvent], "0xstake"⟩ emptyDB (Or.inl rfl)
    (by decide)
  have h2 := C6_gauge_refresh_flag ⟨gaugeLog, [gasEvent], "0xnone"⟩ emptyDB
    (Or.inl rfl) (by decide)
  have hm : gaugeTripleMatch userAddr gaugeAddr 4023175857
      gaugeStakeEvent.asset gaugeStakeEvent :=
    ⟨rfl, rfl, by
      simp only [gaugeStakeEvent, lpToken, asset_normalized_value]
      norm_num⟩
  have hno := h2.2.1 fun e he => by
    rw [List.mem_singleton.1 he]
    exact fun h => Option.noConfusion h.2.1
  exact ⟨h1.1.mpr ⟨gaugeStakeEvent,
      List.mem_cons_of_mem gasEvent (List.mem_cons_self gaugeStakeEvent []),
      hm⟩,
    hno.1, hno.2⟩

lemma decode_swap_missing (pa : List ChecksumEvmAddress) (tx_hash : String)
    (l : List EvmEvent)
    (hok : (swapScanGo pa l 0 none none).err = none)
    (hmiss : (swapScanGo pa l 0 none none).spend_idx = none ∨
      (swapScanGo pa l 0 none none).receive_idx = none) :
    decode_swap pa tx_hash l
      = ⟨(swapScanGo pa l 0 none none).events, DEFAULT_DECODING_OUTPUT,
          [⟨tx_hash, (swapScanGo pa l 0 none none).spend_idx.isSome,
            (swapScanGo pa l 0 none none).receive_idx.isSome⟩], none⟩ := by
  rcases hscan : swapScanGo pa l 0 none none with ⟨evs, s, r, e⟩
  rw [hscan] at hok hmiss
  simp only at hok hmiss
  subst hok
  unfold decode_swap
  rw [hscan]
  rcases hmiss with h | h
  · subst h
    rfl
  · subst h
    cases s with
    | none => rfl
    | some si => rfl

/-- Claim C1 counterexample: dispatching a SWAP topic over a sequence
holding only a SPEND/NONE leg at the router (no receive candidate) emits
exactly one diagnostic naming the transaction hash, but the found spend
leg does NOT keep its upstream SPEND/NONE classification: it is mutated to
TRADE/SPEND — refuting the claimed "no event in the sequence is
mutated". -/
theorem C1_counterexample :
    (decode_pool_events [poolAddr] emptyDB
        ⟨swapLog, [swapSpendEvent], "0xonlyspend"⟩).events
      = [swapSpendReclass swapSpendEvent swapSpendEvent.asset] ∧
    (decode_pool_events [poolAddr] emptyDB
        ⟨swapLog, [swapSpendEvent], "0xonlyspend"⟩).diags
      = [⟨"0xonlyspend", true, false⟩] ∧
    swapSpendEvent.event_type = HistoryEventType.SPEND ∧
    swapSpendEvent.event_subtype = HistoryEventSubType.NONE ∧
    (swapSpendReclass swapSpendEvent swapSpendEvent.asset).event_type
      = HistoryEventType.TRADE ∧
    (swapSpendReclass swapSpendEvent swapSpendEvent.asset).event_subtype
      = HistoryEventSubType.SPEND :=
  ⟨rfl, rfl, rfl, rfl, rfl, rfl⟩

/-- Claim C1 (amended): when the SWAP-topic scan leaves at least one leg
variable unset, the dispatch is a soft failure in the sense that no
reshuffling happens, the error is not propagated, exactly one diagnostic
identifying the transaction hash (and which legs were found) is emitted,
and events matching no candidate shape are unmutated — but each found
candidate leg IS reclassified in place during the scan (a found SPEND/NONE
leg becomes TRADE/SPEND rather than keeping its upstream type). -/
theorem C1_swap_missing_leg_soft_failure (pools : List ChecksumEvmAddress)
    (db : TokenDB) (context : DecoderContext)
    (htopic : context.tx_log.topic0 = LogTopic.SWAP)
    (hres : ∀ e ∈ context.decoded_events,
      e.asset.kind = AssetKind.evmToken)
    (hmiss : (swapScanGo (protocol_addresses pools) context.decoded_events
        0 none none).spend_idx = none ∨
      (swapScanGo (protocol_addresses pools) context.decoded_events
        0 none none).receive_idx = none) :
    (decode_pool_events pools db context).events
        = context.decoded_events.map
            (swapStep (protocol_addresses pools)) ∧
    (decode_pool_events pools db context).diags
        = [⟨context.tx_hash,
            (swapScanGo (protocol_addresses pools) context.decoded_events
              0 none none).spend_idx.isSome,
            (swapScanGo (protocol_addresses pools) context.decoded_events
              0 none none).receive_idx.isSome⟩] ∧
    (decode_pool_events pools db context).err = none ∧
    (∀ e, e.asset.kind = AssetKind.evmToken →
      ¬ isSwapSpendCand (protocol_addresses pools) e →
      ¬ isSwapReceiveCand (protocol_addresses pools) e →
      swapStep (protocol_addresses pools) e = e) ∧
    (∀ e, e.asset.kind = AssetKind.evmToken →
      isSwapSpendCand (protocol_addresses pools) e →
      swapStep (protocol_addresses pools) e
        = swapSpendReclass e e.asset) := by
  have hscan := swapScanGo_ok (protocol_addresses pools)
    context.decoded_events 0 none none hres
  have hok : (swapScanGo (protocol_addresses pools) context.decoded_events
      0 none none).err = none := by rw [hscan]
  have hds := decode_swap_missing (protocol_addresses pools)
    context.tx_hash context.decoded_events hok hmiss
  rw [decode_pool_events_swap pools db context htopic, hds]
  refine ⟨by rw [hscan], rfl, rfl, ?_, ?_⟩
  · exact fun e hk h1 h2 =>
      swapStep_of_not_cand (protocol_addresses pools) e hk h1 h2
  · exact fun e hk h1 =>
      swapStep_of_spend (protocol_addresses pools) e hk h1

/-- Claim C1 (amended) witness: the missing-receive scenario at concrete
inputs — one diagnostic carrying the transaction hash, the gas event
untouched, the spend leg reclassified. -/
theorem C1_swap_missing_leg_soft_failure_witness :
    (decode_pool_events [poolAddr] emptyDB
        ⟨swapLog, [gasEvent, swapSpendEvent], "0xw1"⟩).events
      = [gasEvent, swapSpendEvent].map
          (swapStep (protocol_addresses [poolAddr])) ∧
    (decode_pool_events [poolAddr] emptyDB
        ⟨swapLog, [gasEvent, swapSpendEvent], "0xw1"⟩).diags
      = [⟨"0xw1", true, false⟩] ∧
    swapStep (protocol_addresses [poolAddr]) gasEvent = gasEvent ∧
    swapStep (protocol_addresses [poolAddr]) swapSpendEvent
      = swapSpendReclass swapSpendEvent swapSpendEvent.asset := by
  have h := C1_swap_missing_leg_soft_failure [poolAddr] emptyDB
    ⟨swapLog, [gasEvent, swapSpendEvent], "0xw1"⟩ rfl (by decide)
    (Or.inr rfl)
  exact ⟨h.1, h.2.1.trans (by rfl), h.2.2.2.1 gasEvent rfl (by decide)
    (by decide), h.2.2.2.2 swapSpendEvent rfl (by decide)⟩

/-- Claim C3 counterexample: a sequence with two SPEND/NONE protocol-address
events and one RECEIVE/NONE one, dispatched with a SWAP topic: the scan
retains only the last spend (index 1) as the collected candidate, yet the
first spend event — outside the collected pair — is also reclassified to
TRADE/SPEND, refuting the claimed "events other than the collected
candidate pair are not reclassified". -/
theorem C3_counterexample :
    (decode_pool_events [poolAddr] emptyDB
        ⟨swapLog, [swapSpendEvent, swapSpendEvent2, swapReceiveEvent],
          "0xmulti"⟩).events
      = [swapSpendReclass swapSpendEvent swapSpendEvent.asset,
          swapSpendReclass swapSpendEvent2 swapSpendEvent2.asset,
          swapReceiveReclass swapReceiveEvent swapReceiveEvent.asset] ∧
    (swapScanGo (protocol_addresses [poolAddr])
        [swapSpendEvent, swapSpendEvent2, swapReceiveEvent]
        0 none none).spend_idx = some 1 ∧
    (swapScanGo (protocol_addresses [poolAddr])
        [swapSpendEvent, swapSpendEvent2, swapReceiveEvent]
        0 none none).receive_idx = some 2 ∧
    swapSpendReclass swapSpendEvent swapSpendEvent.asset
      ≠ swapSpendEvent :=
  ⟨rfl, rfl, rfl, fun h =>
    absurd (congrArg EvmEvent.event_type h) (by decide)⟩

/-- Claim C3 (amended): the SWAP scan retains at most one spend position
and at most one receive position (the last match of each kind, kept in the
single `spend_event` / `receive_event` variables) for the later reshuffle,
and events matching neither candidate shape are not reclassified; however
every candidate event — not only the retained pair — is reclassified in
place by the scan. -/
theorem C3_swap_scan_last_match (pa : List ChecksumEvmAddress)
    (l : List EvmEvent)
    (hres : ∀ e ∈ l, e.asset.kind = AssetKind.evmToken) :
    swapScanGo pa l 0 none none
      = ⟨l.map (swapStep pa),
          lastIdxAux (isSwapSpendCand pa) l 0 none,
          lastIdxAux (isSwapReceiveCand pa) l 0 none, none⟩ ∧
    (∀ e, e.asset.kind = AssetKind.evmToken → isSwapSpendCand pa e →
      swapStep pa e = swapSpendReclass e e.asset) ∧
    (∀ e, e.asset.kind = AssetKind.evmToken → isSwapReceiveCand pa e →
      swapStep pa e = swapReceiveReclass e e.asset) ∧
    (∀ e, e.asset.kind = AssetKind.evmToken → ¬ isSwapSpendCand pa e →
      ¬ isSwapReceiveCand pa e → swapStep pa e = e) :=
  ⟨swapScanGo_ok pa l 0 none none hres,
    fun e hk h1 => swapStep_of_spend pa e hk h1,
    fun e hk h2 => swapStep_of_receive pa e hk h2,
    fun e hk h1 h2 => swapStep_of_not_cand pa e hk h1 h2⟩

/-- Claim C3 (amended) witness: on the two-spend sequence the scan equation
holds and each candidate is reclassified by the per-event step. -/
theorem C3_swap_scan_last_match_witness :
    swapScanGo (protocol_addresses [poolAddr])
        [swapSpendEvent, swapSpendEvent2, swapReceiveEvent] 0 none none
      = ⟨[swapSpendEvent, swapSpendEvent2, swapReceiveEvent].map
            (swapStep (protocol_addresses [poolAddr])),
          lastIdxAux (isSwapSpendCand (protocol_addresses [poolAddr]))
            [swapSpendEvent, swapSpendEvent2, swapReceiveEvent] 0 none,
          lastIdxAux (isSwapReceiveCand (protocol_addresses [poolAddr]))
            [swapSpendEvent, swapSpendEvent2, swapReceiveEvent] 0 none,
          none⟩ ∧
    swapStep (protocol_addresses [poolAddr]) swapSpendEvent2
      = swapSpendReclass swapSpendEvent2 swapSpendEvent2.asset := by
  have h := C3_swap_scan_last_match (protocol_addresses [poolAddr])
    [swapSpendEvent, swapSpendEvent2, swapReceiveEvent] (by decide)
  exact ⟨h.1, h.2.1 swapSpendEvent2 rfl (by decide)⟩

/-- Claim C2: dispatching a SWAP topic over a sequence holding exactly one
spend candidate (SPEND/NONE at a protocol address, the router being valid)
and exactly one receive candidate (RECEIVE/NONE at a protocol address):
the spend becomes TRADE/SPEND with the swap note and counterparty, the
receive becomes TRADE/RECEIVE with the receive-swap note and counterparty,
no diagnostic is emitted, no error is raised, the reclassified spend ends
exactly one position before the reclassified receive, and the remaining
events keep their pre-existing relative order (removing the pair from the
result yields the input minus the two candidates, in order). -/
theorem C2_swap_success (pools : List ChecksumEvmAddress) (db : TokenDB)
    (context : DecoderContext) (i j st : Nat) (spendE recvE : EvmEvent)
    (htopic : context.tx_log.topic0 = LogTopic.SWAP)
    (hres : ∀ e ∈ context.decoded_events,
      e.asset.kind = AssetKind.evmToken)
    (hi : context.decoded_events[i]? = some spendE)
    (hj : context.decoded_events[j]? = some recvE)
    (hsc : isSwapSpendCand (protocol_addresses pools) spendE)
    (hrc : isSwapReceiveCand (protocol_addresses pools) recvE)
    (hsu : ∀ (m : Nat) (x : EvmEvent), m ≠ i →
      context.decoded_events[m]? = some x →
      ¬ isSwapSpendCand (protocol_addresses pools) x)
    (hru : ∀ (m : Nat) (x : EvmEvent), m ≠ j →
      context.decoded_events[m]? = some x →
      ¬ isSwapReceiveCand (protocol_addresses pools) x)
    (hst : st = if j < i then i - 1 else i) :
    (decode_pool_events pools db context).diags = [] ∧
    (decode_pool_events pools db context).err = none ∧
    (decode_pool_events pools db context).events[st]?
        = some (swapSpendReclass spendE spendE.asset) ∧
    (decode_pool_events pools db context).events[st + 1]?
        = some (swapReceiveReclass recvE recvE.asset) ∧
    (decode_pool_events pools db context).events.take st
        ++ (decode_pool_events pools db context).events.drop (st + 2)
      = (context.decoded_events.eraseIdx j).eraseIdx st ∧
    (decode_pool_events pools db context).events.length
        = context.decoded_events.length := by
  have hij : i ≠ j := by
    intro h
    rw [h, hj] at hi
    have hse : recvE = spendE := Option.some.inj hi
    rw [hse] at hrc
    exact absurd (hsc.1.symm.trans hrc.1) (by decide)
  have hilt : i < context.decoded_events.length := lt_of_getElem?_some hi
  have hjlt : j < context.decoded_events.length := lt_of_getElem?_some hj
  have hscan := swapScanGo_ok (protocol_addresses pools)
    context.decoded_events 0 none none hres
  have hS : lastIdxAux (isSwapSpendCand (protocol_addresses pools))
      context.decoded_events 0 none = some i := by
    have h := lastIdxAux_of_unique (isSwapSpendCand (protocol_addresses
      pools)) context.decoded_events i spendE hi hsc hsu 0 none
    simpa using h
  have hR : lastIdxAux (isSwapReceiveCand (protocol_addresses pools))
      context.decoded_events 0 none = some j := by
    have h := lastIdxAux_of_unique (isSwapReceiveCand (protocol_addresses
      pools)) context.decoded_events j recvE hj hrc hru 0 none
    simpa using h
  have hds : decode_swap (protocol_addresses pools) context.tx_hash
      context.decoded_events
        = ⟨maybe_reshuffle_events (context.decoded_events.map
              (swapStep (protocol_addresses pools))) i j,
            DEFAULT_DECODING_OUTPUT, [], none⟩ := by
    unfold decode_swap
    rw [hscan, hS, hR]
  have hmaplen : (context.decoded_events.map
      (swapStep (protocol_addresses pools))).length
        = context.decoded_events.length := List.length_map _ _
  have hresh := maybe_reshuffle_events_spec (context.decoded_events.map
      (swapStep (protocol_addresses pools))) i j st
    (by rw [hmaplen]; exact hilt) (by rw [hmaplen]; exact hjlt) hij hst
  have hi' : (context.decoded_events.map
      (swapStep (protocol_addresses pools)))[i]?
        = some (swapSpendReclass spendE spendE.asset) := by
    rw [List.getElem?_map, hi]
    simp only [Option.map_some']
    rw [swapStep_of_spend (protocol_addresses pools) spendE
      (hres spendE (mem_of_getElem?_some hi)) hsc]
  have hj' : (context.decoded_events.map
      (swapStep (protocol_addresses pools)))[j]?
        = some (swapReceiveReclass recvE recvE.asset) := by
    rw [List.getElem?_map, hj]
    simp only [Option.map_some']
    rw [swapStep_of_receive (protocol_addresses pools) recvE
      (hres recvE (mem_of_getElem?_some hj)) hrc]
  have hothers : ((context.decoded_events.map
      (swapStep (protocol_addresses pools))).eraseIdx j).eraseIdx st
        = (context.decoded_events.eraseIdx j).eraseIdx st := by
    rw [eraseIdx_map, eraseIdx_map]
    exact doubleErase_map_id (swapStep (protocol_addresses pools))
      context.decoded_events i j st hst
      fun m x hmi hmj hx =>
        swapStep_of_not_cand (protocol_addresses pools) x
          (hres x (mem_of_getElem?_some hx)) (hsu m x hmi hx)
          (hru m x hmj hx)
  rw [decode_pool_events_swap pools db context htopic, hds]
  exact ⟨rfl, rfl, by rw [hresh.1, hi'], by rw [hresh.2.1, hj'],
    by rw [hresh.2.2.1, hothers], by rw [hresh.2.2.2, hmaplen]⟩

/-- Claim C2 witness: the spec scenario — gas event, SPEND/NONE 0.0001 at
the router, RECEIVE/NONE 0.163519 at a pool — becomes an adjacent
TRADE/SPEND, TRADE/RECEIVE pair at positions 1 and 2 with no diagnostic,
and the gas event keeps position 0. -/
theorem C2_swap_success_witness :
    (decode_pool_events [poolAddr] emptyDB
        ⟨swapLog, [gasEvent, swapSpendEvent, swapReceiveEvent],
          "0xswapok"⟩).diags = [] ∧
    (decode_pool_events [poolAddr] emptyDB
        ⟨swapLog, [gasEvent, swapSpendEvent, swapReceiveEvent],
          "0xswapok"⟩).events[1]?
      = some (swapSpendReclass swapSpendEvent swapSpendEvent.asset) ∧
    (decode_pool_events [poolAddr] emptyDB
        ⟨swapLog, [gasEvent, swapSpendEvent, swapReceiveEvent],
          "0xswapok"⟩).events[2]?
      = some (swapReceiveReclass swapReceiveEvent swapReceiveEvent.asset) ∧
    (decode_pool_events [poolAddr] emptyDB
        ⟨swapLog, [gasEvent, swapSpendEvent, swapReceiveEvent],
          "0xswapok"⟩).events.take 1
      ++ (decode_pool_events [poolAddr] emptyDB
        ⟨swapLog, [gasEvent, swapSpendEvent, swapReceiveEvent],
          "0xswapok"⟩).events.drop 3
      = ([gasEvent, swapSpendEvent, swapReceiveEvent].eraseIdx 2).eraseIdx
          1 := by
  have hsu : ∀ (m : Nat) (x : EvmEvent), m ≠ 1 →
      (⟨swapLog, [gasEvent, swapSpendEvent, swapReceiveEvent], "0xswapok"⟩ :
        DecoderContext).decoded_events[m]? = some x →
      ¬ isSwapSpendCand (protocol_addresses [poolAddr]) x := by
    intro m x hm hx
    match m with
    | 0 =>
      rw [← Option.some.inj hx]
      decide
    | 1 => exact absurd rfl hm
    | 2 =>
      rw [← Option.some.inj hx]
      decide
    | n + 3 => exact Option.noConfusion hx
  have hru : ∀ (m : Nat) (x : EvmEvent), m ≠ 2 →
      (⟨swapLog, [gasEvent, swapSpendEvent, swapReceiveEvent], "0xswapok"⟩ :
        DecoderContext).decoded_events[m]? = some x →
      ¬ isSwapReceiveCand (protocol_addresses [poolAddr]) x := by
    intro m x hm hx
    match m with
    | 0 =>
      rw [← Option.some.inj hx]
      decide
    | 1 =>
      rw [← Option.some.inj hx]
      decide
    | 2 => exact absurd rfl hm
    | n + 3 => exact Option.noConfusion hx
  have h := C2_swap_success [poolAddr] emptyDB
    ⟨swapLog, [gasEvent, swapSpendEvent, swapReceiveEvent], "0xswapok"⟩
    1 2 1 swapSpendEvent swapReceiveEvent rfl (by decide) rfl rfl
    (by decide) (by decide) hsu hru rfl
  exact ⟨h.1, h.2.2.1, h.2.2.2.1, h.2.2.2.2.1⟩

end Aerodrome
